import Mathlib

/-!
# Verification of the Lyra compiler and reactive runtime

Shallow embedding of the Lyra repository's core code:

* the reactive runtime (`signal`, `batch`, `mount`) from
  `packages/runtime/src/index.ts` (final module version),
* the JSX directive transform from
  `packages/compiler/src/transform/reactivity.ts`,
* the accessibility analyzer from `packages/compiler/src/a11y/rules.ts`
  (eight-rule version),
* the compile orchestrator from `packages/compiler/src/index.ts`,
* the source-map generator from `packages/compiler/src/sourcemap/generate.ts`.

JavaScript machine values are modelled by the fragment the code exercises:
integral numbers (with distinguished `NaN` and `-0`), strings, booleans,
`null` and `undefined`.  Listener closures are modelled by numeric
identifiers: invoking a listener either updates the DOM property it was
bound to by `mount`, or is appended to an observation log.
-/

set_option maxHeartbeats 1600000

/-- JS values, restricted to the fragment the runtime claims exercise.
`num 0` is `+0`; `negZero` is `-0`; `nan` is `NaN`. -/
inductive JsVal where
  | undefV
  | nullV
  | nan
  | negZero
  | num (n : Int)
  | str (s : String)
  | boolV (b : Bool)
deriving DecidableEq, Repr

/-- `Object.is` (SameValue): `NaN` is self-equal, `+0` and `-0` are distinct. -/
def objectIs : JsVal → JsVal → Bool
  | .undefV, .undefV => true
  | .nullV, .nullV => true
  | .nan, .nan => true
  | .negZero, .negZero => true
  | .num a, .num b => a == b
  | .str a, .str b => a == b
  | .boolV a, .boolV b => a == b
  | _, _ => false

/-- `String(v)` coercion on the modelled fragment. -/
def jsToString : JsVal → String
  | .undefV => "undefined"
  | .nullV => "null"
  | .nan => "NaN"
  | .negZero => "0"
  | .num n => toString n
  | .str s => s
  | .boolV true => "true"
  | .boolV false => "false"

/-- `Boolean(v)` coercion on the modelled fragment. -/
def jsTruthy : JsVal → Bool
  | .undefV => false
  | .nullV => false
  | .nan => false
  | .negZero => false
  | .num n => n != 0
  | .str s => s != ""
  | .boolV b => b

/-- The `v == null` check (`null` or `undefined`). -/
def jsNullish : JsVal → Bool
  | .undefV => true
  | .nullV => true
  | _ => false

/-- A signal cell: stored value plus the subscribed listener identifiers
(a JS `Set`: insertion order, no duplicates). -/
structure SigCell where
  val : JsVal
  listeners : List Nat
deriving DecidableEq, Repr

/-- The four DOM properties `mount` recognizes for signal bindings. -/
inductive BindProp where
  | valueP
  | checkedP
  | disabledP
  | ariaLabelP
deriving DecidableEq, Repr

/-- Element kind, distinguishing the `instanceof` branches of `setDomProp`. -/
inductive ElemKind where
  | inputEl
  | textareaEl
  | otherEl
deriving DecidableEq, Repr

/-- A dynamic value stored in an element's property bag
(`HTMLElement & Record<string, unknown>`): a handler function (by identity),
a signal reference, a boolean, or `undefined`. -/
inductive DynVal where
  | funcV (id : Nat)
  | sigV (i : Nat)
  | boolV (b : Bool)
  | undefV
deriving DecidableEq, Repr

/-- JS truthiness of a `DynVal` (functions and objects are truthy). -/
def dynTruthy : DynVal → Bool
  | .funcV _ => true
  | .sigV _ => true
  | .boolV b => b
  | .undefV => false

/-- A DOM element: attributes in document order, own-property bag,
registered event listeners, the four bindable DOM properties, and classes. -/
structure DomElem where
  kind : ElemKind
  attrs : List (String × String)
  props : List (String × DynVal)
  events : List (String × DynVal)
  valueProp : String
  checkedProp : Bool
  disabledProp : Bool
  ariaLabelProp : Option String
  classes : List String
deriving DecidableEq, Repr

/-- The runtime world: signal cells, the module-level batching state
(`_batchDepth`, `_pendingEffects`), an observation log of invoked plain
listeners, the DOM subtree (elements in tree-walker order, root first),
the table mapping mount-installed listener ids to their DOM binding, and
a fresh-listener-id counter. -/
structure World where
  sigs : List SigCell
  batchDepth : Nat
  pending : List (Nat × JsVal)
  invoked : List (Nat × JsVal)
  dom : List DomElem
  bindings : List (Nat × Nat × BindProp)
  nextListener : Nat
deriving DecidableEq, Repr

/-- Update the element at index `i` of a list, if present. -/
def updateAt {α : Type} (i : Nat) (f : α → α) : List α → List α
  | [] => []
  | x :: xs =>
    match i with
    | 0 => f x :: xs
    | n + 1 => x :: updateAt n f xs

/-- Look up the DOM binding recorded for a listener id, if any. -/
def findBinding (bs : List (Nat × Nat × BindProp)) (lid : Nat) :
    Option (Nat × BindProp) :=
  match bs with
  | [] => none
  | (l, ei, p) :: rest => if l = lid then some (ei, p) else findBinding rest lid

/-- `setDomProp` from `mount`: assign one of the four supported DOM
properties with the source's coercion rules. -/
def applyDomProp (p : BindProp) (nv : JsVal) (el : DomElem) : DomElem :=
  match p with
  | .valueP =>
    match el.kind with
    | .inputEl => { el with valueProp := if jsNullish nv then "" else jsToString nv }
    | .textareaEl => { el with valueProp := if jsNullish nv then "" else jsToString nv }
    | .otherEl => { el with valueProp := if jsNullish nv then "" else jsToString nv }
  | .checkedP => { el with checkedProp := jsTruthy nv }
  | .disabledP => { el with disabledProp := jsTruthy nv }
  | .ariaLabelP =>
    { el with ariaLabelProp := if jsNullish nv then none else some (jsToString nv) }

/-- Invoke one listener with a value: a mount-installed listener re-applies
its DOM property; a plain subscriber is recorded in the observation log. -/
def invokeListener (w : World) (lid : Nat) (v : JsVal) : World :=
  match findBinding w.bindings lid with
  | some (ei, p) => { w with dom := updateAt ei (applyDomProp p v) w.dom }
  | none => { w with invoked := w.invoked ++ [(lid, v)] }

/-- Invoke a queue of (listener, value) notifications in order. -/
def invokeAll (w : World) (l : List (Nat × JsVal)) : World :=
  l.foldl (fun acc pr => invokeListener acc pr.1 pr.2) w

/-- The `value` setter of `signal`: skip when `Object.is`-equal, otherwise
store the new value, then enqueue a bound call per listener while batching
(`_batchDepth > 0`) or invoke every listener immediately. -/
def setValue (si : Nat) (v : JsVal) (w : World) : World :=
  match w.sigs.get? si with
  | none => w
  | some cell =>
    if objectIs cell.val v then w
    else
      let w1 : World := { w with sigs := updateAt si (fun c => { c with val := v }) w.sigs }
      if w1.batchDepth > 0 then
        { w1 with pending := w1.pending ++ cell.listeners.map (fun l => (l, v)) }
      else
        invokeAll w1 (cell.listeners.map (fun l => (l, v)))

/-- Programs over the reactive runtime: a signal write, a thrown exception,
or `batch(fn)` whose body is a command list. -/
inductive Cmd where
  | setSig (i : Nat) (v : JsVal)
  | throwJs
  | batchC (body : List Cmd)

/-- The `finally` block of `batch`: decrement `_batchDepth` and, exactly
when it returns to zero, splice out the pending queue and invoke every
queued notification in FIFO order.  The exception flag passes through. -/
def batchFinally (p : World × Bool) : World × Bool :=
  let w2 : World := { p.1 with batchDepth := p.1.batchDepth - 1 }
  if w2.batchDepth = 0 then
    (invokeAll { w2 with pending := [] } w2.pending, p.2)
  else (w2, p.2)

/-- Run a command list.  The boolean result marks a propagating exception:
it aborts the remaining commands of the enclosing body.  `batchC` mirrors
`batch`: increment `_batchDepth`, run the body, then run the `finally`
block; the exception (if any) propagates afterwards. -/
def runCmds : List Cmd → World → World × Bool
  | [], w => (w, false)
  | .setSig i v :: rest, w => runCmds rest (setValue i v w)
  | .throwJs :: _, w => (w, true)
  | .batchC body :: rest, w =>
    let q := batchFinally (runCmds body { w with batchDepth := w.batchDepth + 1 })
    if q.2 then (q.1, true) else runCmds rest q.1

/-- Run a single command (a command list of length one). -/
def runCmd (c : Cmd) (w : World) : World × Bool :=
  runCmds [c] w

theorem invokeListener_shape (w : World) (lid : Nat) (v : JsVal) :
    ∃ d i, invokeListener w lid v = { w with dom := d, invoked := i } := by
  unfold invokeListener
  cases findBinding w.bindings lid with
  | none => exact ⟨w.dom, w.invoked ++ [(lid, v)], rfl⟩
  | some pr => exact ⟨updateAt pr.1 (applyDomProp pr.2 v) w.dom, w.invoked, rfl⟩

theorem invokeAll_shape (l : List (Nat × JsVal)) (w : World) :
    ∃ d i, invokeAll w l = { w with dom := d, invoked := i } := by
  induction l generalizing w with
  | nil => exact ⟨w.dom, w.invoked, rfl⟩
  | cons hd tl ih =>
    obtain ⟨d1, i1, h1⟩ := invokeListener_shape w hd.1 hd.2
    obtain ⟨d2, i2, h2⟩ := ih { w with dom := d1, invoked := i1 }
    refine ⟨d2, i2, ?_⟩
    simpa [invokeAll, h1] using h2

theorem invokeAll_log (l : List (Nat × JsVal)) (w : World) (h : w.bindings = []) :
    invokeAll w l = { w with invoked := w.invoked ++ l } := by
  induction l generalizing w with
  | nil => simp [invokeAll]
  | cons hd tl ih =>
    have h1 : invokeListener w hd.1 hd.2 = { w with invoked := w.invoked ++ [(hd.1, hd.2)] } := by
      unfold invokeListener
      rw [h]
      simp [findBinding]
    have h2 := ih { w with invoked := w.invoked ++ [(hd.1, hd.2)] } (by simpa using h)
    simp only [invokeAll] at h2 ⊢
    simp only [List.foldl_cons, h1]
    rw [h2]
    simp

theorem setValue_shape (si : Nat) (v : JsVal) (w : World) :
    ∃ s p d i,
      setValue si v w = { w with sigs := s, pending := p, dom := d, invoked := i } := by
  unfold setValue
  cases w.sigs.get? si with
  | none => exact ⟨w.sigs, w.pending, w.dom, w.invoked, rfl⟩
  | some cell =>
    by_cases hc : objectIs cell.val v
    · exact ⟨w.sigs, w.pending, w.dom, w.invoked, by simp [hc]⟩
    · simp only [hc, Bool.false_eq_true, if_false]
      by_cases hb : w.batchDepth > 0
      · exact ⟨updateAt si (fun c => { c with val := v }) w.sigs,
          w.pending ++ cell.listeners.map (fun l => (l, v)), w.dom, w.invoked, by simp [hb]⟩
      · obtain ⟨d, i, h⟩ := invokeAll_shape (cell.listeners.map (fun l => (l, v)))
          { w with sigs := updateAt si (fun c => { c with val := v }) w.sigs }
        refine ⟨updateAt si (fun c => { c with val := v }) w.sigs, w.pending, d, i, ?_⟩
        simp only [hb, if_false]
        exact h

theorem batchFinally_fields (p : World × Bool) :
    (batchFinally p).1.bindings = p.1.bindings ∧
    (batchFinally p).1.nextListener = p.1.nextListener ∧
    (batchFinally p).1.batchDepth = p.1.batchDepth - 1 ∧
    (batchFinally p).2 = p.2 := by
  unfold batchFinally
  by_cases h : p.1.batchDepth - 1 = 0
  · obtain ⟨d, i, hh⟩ := invokeAll_shape p.1.pending
      { p.1 with batchDepth := p.1.batchDepth - 1, pending := [] }
    simp only at hh
    rw [h] at hh
    simp [h, hh]
  · simp [h]

theorem runCmds_pres : ∀ (cmds : List Cmd) (w : World),
    (runCmds cmds w).1.bindings = w.bindings ∧
    (runCmds cmds w).1.nextListener = w.nextListener ∧
    (runCmds cmds w).1.batchDepth = w.batchDepth
  | [], w => by simp [runCmds]
  | .setSig i v :: rest, w => by
    obtain ⟨s, p, d, iv, hs⟩ := setValue_shape i v w
    have ih := runCmds_pres rest (setValue i v w)
    simp only [runCmds]
    exact ⟨by rw [ih.1, hs], by rw [ih.2.1, hs], by rw [ih.2.2, hs]⟩
  | .throwJs :: rest, w => by simp [runCmds]
  | .batchC body :: rest, w => by
    have ihb := runCmds_pres body { w with batchDepth := w.batchDepth + 1 }
    obtain ⟨hb, hn, hd, _⟩ :=
      batchFinally_fields (runCmds body { w with batchDepth := w.batchDepth + 1 })
    simp only [runCmds]
    by_cases hq : (batchFinally (runCmds body { w with batchDepth := w.batchDepth + 1 })).2 = true
    · simp only [if_pos hq]
      exact ⟨by rw [hb, ihb.1], by rw [hn, ihb.2.1], by simp [hd, ihb.2.2]⟩
    · simp only [if_neg hq]
      have ihr := runCmds_pres rest
        (batchFinally (runCmds body { w with batchDepth := w.batchDepth + 1 })).1
      exact ⟨by rw [ihr.1, hb, ihb.1], by rw [ihr.2.1, hn, ihb.2.1],
        by simp [ihr.2.2, hd, ihb.2.2]⟩

theorem setValue_batched (si : Nat) (v : JsVal) (w : World) (h : 0 < w.batchDepth) :
    (setValue si v w).invoked = w.invoked ∧ (setValue si v w).dom = w.dom ∧
    (setValue si v w).batchDepth = w.batchDepth ∧
    ∃ q, (setValue si v w).pending = w.pending ++ q := by
  unfold setValue
  cases w.sigs.get? si with
  | none => exact ⟨rfl, rfl, rfl, [], by simp⟩
  | some cell =>
    by_cases hc : objectIs cell.val v = true
    · refine ?_
      simp only [hc, if_true]
      refine ⟨?_, ?_, ?_, [], ?_⟩ <;> simp
    · simp only [hc, Bool.false_eq_true, if_false]
      rw [if_pos h]
      exact ⟨rfl, rfl, rfl, cell.listeners.map (fun l => (l, v)), rfl⟩

theorem runCmds_batched : ∀ (cmds : List Cmd) (w : World), 0 < w.batchDepth →
    (runCmds cmds w).1.invoked = w.invoked ∧ (runCmds cmds w).1.dom = w.dom ∧
    ∃ q, (runCmds cmds w).1.pending = w.pending ++ q
  | [], w, _ => by simp [runCmds]
  | .setSig i v :: rest, w, h => by
    obtain ⟨hi, hdm, hdep, q1, hp⟩ := setValue_batched i v w h
    have ih := runCmds_batched rest (setValue i v w) (by rw [hdep]; exact h)
    obtain ⟨ih1, ih2, q2, ih3⟩ := ih
    simp only [runCmds]
    refine ⟨by rw [ih1, hi], by rw [ih2, hdm], q1 ++ q2, ?_⟩
    rw [ih3, hp, List.append_assoc]
  | .throwJs :: rest, w, _ => by simp [runCmds]
  | .batchC body :: rest, w, h => by
    have hd1 : 0 < ({ w with batchDepth := w.batchDepth + 1 } : World).batchDepth := by
      simp
    obtain ⟨ib1, ib2, qb, ib3⟩ :=
      runCmds_batched body { w with batchDepth := w.batchDepth + 1 } hd1
    have hpres := runCmds_pres body { w with batchDepth := w.batchDepth + 1 }
    -- after the finally block the depth is back to w.batchDepth > 0, so no flush
    have hdep : (runCmds body { w with batchDepth := w.batchDepth + 1 }).1.batchDepth
        = w.batchDepth + 1 := hpres.2.2
    have hfin : batchFinally (runCmds body { w with batchDepth := w.batchDepth + 1 })
        = ({ (runCmds body { w with batchDepth := w.batchDepth + 1 }).1 with
              batchDepth := w.batchDepth },
           (runCmds body { w with batchDepth := w.batchDepth + 1 }).2) := by
      unfold batchFinally
      rw [hdep]
      simp only [Nat.add_sub_cancel]
      rw [if_neg (by omega)]
    simp only [runCmds, hfin]
    by_cases hq : (runCmds body { w with batchDepth := w.batchDepth + 1 }).2 = true
    · rw [if_pos hq]
      exact ⟨ib1, ib2, qb, ib3⟩
    · rw [if_neg hq]
      have ihr := runCmds_batched rest
        ({ (runCmds body { w with batchDepth := w.batchDepth + 1 }).1 with
            batchDepth := w.batchDepth }) (by simpa using h)
      obtain ⟨ir1, ir2, qr, ir3⟩ := ihr
      refine ⟨by rw [ir1]; exact ib1, by rw [ir2]; exact ib2, qb ++ qr, ?_⟩
      rw [ir3]
      simp only
      rw [ib3, List.append_assoc]

theorem runCmd_batch_eval (body : List Cmd) (w : World) :
    runCmd (.batchC body) w
      = ((batchFinally (runCmds body { w with batchDepth := w.batchDepth + 1 })).1,
         (runCmds body { w with batchDepth := w.batchDepth + 1 }).2) := by
  unfold runCmd
  simp only [runCmds]
  obtain ⟨-, -, -, hsnd⟩ :=
    batchFinally_fields (runCmds body { w with batchDepth := w.batchDepth + 1 })
  by_cases hq : (batchFinally (runCmds body { w with batchDepth := w.batchDepth + 1 })).2 = true
  · rw [if_pos hq, ← hsnd, hq]
  · rw [if_neg hq]
    have hf : (batchFinally (runCmds body { w with batchDepth := w.batchDepth + 1 })).2 = false := by
      revert hq
      cases (batchFinally (runCmds body { w with batchDepth := w.batchDepth + 1 })).2 <;> simp
    rw [← hsnd, hf]

theorem invokeAll_sigs (l : List (Nat × JsVal)) (w : World) :
    (invokeAll w l).sigs = w.sigs := by
  obtain ⟨d, i, h⟩ := invokeAll_shape l w
  rw [h]

theorem updateAt_get? {α : Type} (f : α → α) : ∀ (l : List α) (i : Nat),
    (updateAt i f l).get? i = (l.get? i).map f
  | [], i => by simp [updateAt]
  | x :: xs, 0 => by simp [updateAt]
  | x :: xs, i + 1 => by
    simp only [updateAt, List.get?_cons_succ]
    exact updateAt_get? f xs i

theorem setValue_sigs_changed (si : Nat) (v : JsVal) (w : World) (cell : SigCell)
    (hsi : w.sigs.get? si = some cell) (hc : objectIs cell.val v = false) :
    (setValue si v w).sigs = updateAt si (fun c => { c with val := v }) w.sigs := by
  unfold setValue
  rw [hsi]
  simp only [hc, Bool.false_eq_true, if_false]
  by_cases hb : w.batchDepth > 0
  · rw [if_pos hb]
  · rw [if_neg hb]
    exact invokeAll_sigs _ _

theorem runCmd_batch_zero (body : List Cmd) (w : World) (h : w.batchDepth = 0)
    (hbind : w.bindings = []) :
    runCmd (.batchC body) w
      = ({ (runCmds body { w with batchDepth := 1 }).1 with
            batchDepth := 0, pending := [],
            invoked := w.invoked ++ (runCmds body { w with batchDepth := 1 }).1.pending },
         (runCmds body { w with batchDepth := 1 }).2) := by
  have hw : ({ w with batchDepth := w.batchDepth + 1 } : World) = { w with batchDepth := 1 } := by
    rw [h]
  have he := runCmd_batch_eval body w
  rw [hw] at he
  have hdep : (runCmds body { w with batchDepth := 1 }).1.batchDepth = 1 :=
    (runCmds_pres body { w with batchDepth := 1 }).2.2
  have hbind2 : (runCmds body { w with batchDepth := 1 }).1.bindings = [] := by
    have := (runCmds_pres body { w with batchDepth := 1 }).1
    simp only at this
    rw [this]
    exact hbind
  have hinv : (runCmds body { w with batchDepth := 1 }).1.invoked = w.invoked :=
    (runCmds_batched body { w with batchDepth := 1 } (by simp)).1
  have hbf : batchFinally (runCmds body { w with batchDepth := 1 })
      = ({ (runCmds body { w with batchDepth := 1 }).1 with
            batchDepth := 0, pending := [],
            invoked := w.invoked ++ (runCmds body { w with batchDepth := 1 }).1.pending },
         (runCmds body { w with batchDepth := 1 }).2) := by
    unfold batchFinally
    rw [hdep]
    have h10 : (1 : Nat) - 1 = 0 := rfl
    rw [h10]
    rw [if_pos rfl]
    have hlog := invokeAll_log (runCmds body { w with batchDepth := 1 }).1.pending
      { (runCmds body { w with batchDepth := 1 }).1 with batchDepth := 0, pending := [] }
      (by simpa using hbind2)
    simp only at hlog
    rw [hlog, hinv]
  rw [he, hbf]

theorem runCmd_batch_nested (body : List Cmd) (w : World) (h : 0 < w.batchDepth) :
    (runCmd (.batchC body) w).1.invoked = w.invoked := by
  have he := runCmd_batch_eval body w
  have hdep : (runCmds body { w with batchDepth := w.batchDepth + 1 }).1.batchDepth
      = w.batchDepth + 1 :=
    (runCmds_pres body { w with batchDepth := w.batchDepth + 1 }).2.2
  have hinv : (runCmds body { w with batchDepth := w.batchDepth + 1 }).1.invoked
      = w.invoked :=
    (runCmds_batched body { w with batchDepth := w.batchDepth + 1 } (by simp)).1
  have hbf : batchFinally (runCmds body { w with batchDepth := w.batchDepth + 1 })
      = ({ (runCmds body { w with batchDepth := w.batchDepth + 1 }).1 with
            batchDepth := w.batchDepth },
         (runCmds body { w with batchDepth := w.batchDepth + 1 }).2) := by
    unfold batchFinally
    rw [hdep]
    simp only [Nat.add_sub_cancel]
    rw [if_neg (by omega)]
  rw [he, hbf]
  exact hinv

/-- Example world for the batching scenario: two signals holding `0`,
with one plain subscriber each (ids 10 and 20), outside any batch. -/
def batchExampleWorld : World :=
  { sigs := [{ val := .num 0, listeners := [10] }, { val := .num 0, listeners := [20] }],
    batchDepth := 0, pending := [], invoked := [], dom := [], bindings := [],
    nextListener := 0 }

/-- C2: writing a value that is `Object.is`-equal to the stored one is a
no-op — the world (stored value, pending queue, invocation log, DOM) is
unchanged and no listener runs; consequently, after `s.value = NaN` a
second `NaN` write changes nothing and never notifies any listener. -/
theorem signal_sameValue_write_is_noop :
    (∀ (w : World) (si : Nat) (v : JsVal) (cell : SigCell),
        w.sigs.get? si = some cell → objectIs cell.val v = true →
        setValue si v w = w)
    ∧ (∀ (w : World) (si : Nat),
        setValue si .nan (setValue si .nan w) = setValue si .nan w) := by
  constructor
  · intro w si v cell hsi hc
    unfold setValue
    rw [hsi]
    simp only [hc, if_true]
  · intro w si
    cases hsi : w.sigs.get? si with
    | none =>
      have h1 : setValue si .nan w = w := by
        unfold setValue
        rw [hsi]
      rw [h1, h1]
    | some cell =>
      by_cases hc : objectIs cell.val .nan = true
      · have h1 : setValue si .nan w = w := by
          unfold setValue
          rw [hsi]
          simp only [hc, if_true]
        rw [h1, h1]
      · have hb : objectIs cell.val .nan = false := by
          revert hc
          cases objectIs cell.val .nan <;> simp
        have hsigs := setValue_sigs_changed si .nan w cell hsi hb
        set w1 := setValue si .nan w with hw1
        have hget : w1.sigs.get? si = some { cell with val := .nan } := by
          rw [hw1, hsigs, updateAt_get?, hsi]
          rfl
        show setValue si .nan w1 = w1
        unfold setValue
        rw [hget]
        simp [objectIs]

/-- Example world for the same-value scenario: one signal holding `5`
with one plain subscriber (id 0), outside any batch. -/
def sameValueExampleWorld : World :=
  { sigs := [{ val := .num 5, listeners := [0] }],
    batchDepth := 0, pending := [], invoked := [], dom := [], bindings := [],
    nextListener := 1 }

/-- Witness for C2 at a concrete world: a same-value write of `5` is a
no-op, and a second `NaN` write after a first one is a no-op. -/
theorem signal_sameValue_write_is_noop_witness :
    setValue 0 (.num 5) sameValueExampleWorld = sameValueExampleWorld
    ∧ setValue 0 .nan (setValue 0 .nan sameValueExampleWorld)
        = setValue 0 .nan sameValueExampleWorld := by
  constructor
  · exact signal_sameValue_write_is_noop.1 sameValueExampleWorld 0 (.num 5)
      { val := .num 5, listeners := [0] } (by rfl) (by rfl)
  · exact signal_sameValue_write_is_noop.2 sameValueExampleWorld 0

/-- C3: while `_batchDepth > 0` a value-changing write enqueues one bound
notification per subscribed listener (in listener order) instead of firing
any; when the outermost `batch` completes, all queued notifications fire
in FIFO order, none lost or duplicated; a nested `batch` never flushes;
and `batch(() => { a.value = 1; b.value = 2 })` fires `a`'s listener
before `b`'s, both only after the body returns. -/
theorem batch_defers_writes_and_flushes_in_order :
    (∀ (w : World) (si : Nat) (v : JsVal) (cell : SigCell),
        0 < w.batchDepth → w.sigs.get? si = some cell → objectIs cell.val v = false →
        setValue si v w
          = { w with sigs := updateAt si (fun c => { c with val := v }) w.sigs,
                     pending := w.pending ++ cell.listeners.map (fun l => (l, v)) })
    ∧ (∀ (body : List Cmd) (w : World), w.batchDepth = 0 → w.bindings = [] →
        (runCmd (.batchC body) w).1.invoked
            = w.invoked ++ (runCmds body { w with batchDepth := 1 }).1.pending
          ∧ (runCmd (.batchC body) w).1.pending = [])
    ∧ (∀ (body : List Cmd) (w : World), 0 < w.batchDepth →
        (runCmd (.batchC body) w).1.invoked = w.invoked)
    ∧ ((runCmd (.batchC [.setSig 0 (.num 1), .setSig 1 (.num 2)]) batchExampleWorld).1.invoked
          = [(10, .num 1), (20, .num 2)]
        ∧ (runCmds [.setSig 0 (.num 1), .setSig 1 (.num 2)]
              { batchExampleWorld with batchDepth := 1 }).1.invoked = []) := by
  refine ⟨?_, ?_, ?_, ?_⟩
  · intro w si v cell h hsi hc
    unfold setValue
    rw [hsi]
    simp only [hc, Bool.false_eq_true, if_false]
    rw [if_pos h]
  · intro body w h hbind
    rw [runCmd_batch_zero body w h hbind]
    exact ⟨rfl, rfl⟩
  · intro body w h
    exact runCmd_batch_nested body w h
  · constructor
    · simp [runCmd, runCmds, setValue, batchExampleWorld, batchFinally, invokeAll,
        invokeListener, findBinding, updateAt, objectIs]
    · simp [runCmds, setValue, batchExampleWorld, invokeAll, invokeListener,
        findBinding, updateAt, objectIs]

/-- Witness for C3's quantified parts at a concrete input: a batched write
enqueues without firing, and the outermost completion flushes the queue. -/
theorem batch_defers_writes_and_flushes_in_order_witness :
    setValue 0 (.num 1) { batchExampleWorld with batchDepth := 1 }
      = { batchExampleWorld with
          batchDepth := 1
          sigs := updateAt 0 (fun c => { c with val := .num 1 }) batchExampleWorld.sigs
          pending := [(10, .num 1)] }
    ∧ (runCmd (.batchC [.setSig 0 (.num 1)]) { batchExampleWorld with batchDepth := 1 }).1.invoked
        = [] := by
  constructor
  · have h := batch_defers_writes_and_flushes_in_order.1
      { batchExampleWorld with batchDepth := 1 } 0 (.num 1)
      { val := .num 0, listeners := [10] } (by decide) (by rfl) (by rfl)
    simpa [batchExampleWorld] using h
  · exact batch_defers_writes_and_flushes_in_order.2.2.1
      [.setSig 0 (.num 1)] { batchExampleWorld with batchDepth := 1 } (by decide)

/-- C10: if the function passed to `batch` throws, the `finally` block
still restores the depth counter, and when that restoration reaches zero
the notifications queued by value-changing writes inside the body are
flushed to their listeners in FIFO order before the exception propagates
to the caller — none dropped, none left pending. -/
theorem batch_flushes_queued_writes_on_throw :
    ∀ (body : List Cmd) (w : World), w.batchDepth = 0 → w.bindings = [] →
      (runCmd (.batchC body) w).2 = (runCmds body { w with batchDepth := 1 }).2
      ∧ (runCmd (.batchC body) w).1.batchDepth = 0
      ∧ (runCmd (.batchC body) w).1.invoked
          = w.invoked ++ (runCmds body { w with batchDepth := 1 }).1.pending
      ∧ (runCmd (.batchC body) w).1.pending = [] := by
  intro body w h hbind
  rw [runCmd_batch_zero body w h hbind]
  exact ⟨rfl, rfl, rfl, rfl⟩

/-- Witness for C10 at a concrete input: the body writes `1` to signal 0
and then throws; the queued notification still fires, the queue is left
empty, the depth is restored, and the exception propagates. -/
theorem batch_flushes_queued_writes_on_throw_witness :
    (runCmd (.batchC [.setSig 0 (.num 1), .throwJs]) batchExampleWorld).2 = true
    ∧ (runCmd (.batchC [.setSig 0 (.num 1), .throwJs]) batchExampleWorld).1.batchDepth = 0
    ∧ (runCmd (.batchC [.setSig 0 (.num 1), .throwJs]) batchExampleWorld).1.invoked
        = [(10, .num 1)]
    ∧ (runCmd (.batchC [.setSig 0 (.num 1), .throwJs]) batchExampleWorld).1.pending = [] := by
  have h := batch_flushes_queued_writes_on_throw [.setSig 0 (.num 1), .throwJs]
    batchExampleWorld (by rfl) (by rfl)
  obtain ⟨h1, h2, h3, h4⟩ := h
  refine ⟨?_, h2, ?_, h4⟩
  · rw [h1]
    simp [runCmds, setValue, batchExampleWorld, updateAt, objectIs]
  · rw [h3]
    simp [runCmds, setValue, batchExampleWorld, updateAt, objectIs, invokeAll,
      invokeListener, findBinding]

/-- `startsWith` on strings (char-list prefix test). -/
def strStartsWith (s p : String) : Bool := p.data.isPrefixOf s.data

/-- Is a dynamic value a function (`typeof x === "function"`)? -/
def isFuncDyn : DynVal → Bool
  | .funcV _ => true
  | _ => false

/-- The `UNSAFE_KEYS` denylist from the runtime (never dereferenced). -/
def forbiddenKeys : List String := ["__proto__", "constructor", "prototype"]

/-- Plain property-bag read `el[key]`; absent keys read as `undefined`. -/
def propGet (props : List (String × DynVal)) (key : String) : DynVal :=
  match props with
  | [] => .undefV
  | (k, v) :: rest => if k = key then v else propGet rest key

/-- `safeGet`: reject denylisted keys, then an own-property read. -/
def safeGet (el : DomElem) (key : String) : DynVal :=
  if key ∈ forbiddenKeys then .undefV else propGet el.props key

/-- `getAttribute`: first attribute with the given name, `null` if absent. -/
def attrLookup (attrs : List (String × String)) (name : String) : Option String :=
  match attrs with
  | [] => none
  | (k, v) :: rest => if k = name then some v else attrLookup rest name

/-- `addEventListener`: the DOM ignores duplicate (event, callback) pairs. -/
def addEvent (evt : String) (cb : DynVal) (l : List (String × DynVal)) :
    List (String × DynVal) :=
  if (evt, cb) ∈ l then l else l ++ [(evt, cb)]

/-- `classList.add`: append the class unless already present. -/
def classAdd (cls : String) (l : List String) : List String :=
  if cls ∈ l then l else l ++ [cls]

/-- `Set.add` for listener ids: append unless already present. -/
def setAdd (x : Nat) (l : List Nat) : List Nat :=
  if x ∈ l then l else l ++ [x]

/-- The attribute name of a bindable DOM property. -/
def propName : BindProp → String
  | .valueP => "value"
  | .checkedP => "checked"
  | .disabledP => "disabled"
  | .ariaLabelP => "ariaLabel"

/-- A recorded cleanup action: an `removeEventListener` closure or a signal
unsubscribe closure (`() => listeners.delete(fn)`). -/
inductive CleanupFn where
  | removeEv (ei : Nat) (evt : String) (cb : DynVal)
  | unsub (si : Nat) (lid : Nat)
deriving DecidableEq, Repr

/-- Wire one attribute of element `ei` during `mount`: `data-on-<event>`
resolves a handler by name on the element then on the root, attaches it
when truthy and records a listener removal; `data-class-<className>` reads
a boolean property and toggles the class.  `el0` and `root` are the
element and root as seen when the element's loop iteration starts (their
property bags and attributes are never modified by `mount`). -/
def wireAttr (root el0 : DomElem) (ei : Nat) (acc : World × List CleanupFn)
    (a : String × String) : World × List CleanupFn :=
  let acc1 :=
    if strStartsWith a.1 "data-on-" then
      -- `attr.name.replace("data-on-", "")`: the name starts with the
      -- pattern, so the first occurrence is the leading one.
      let evt := a.1.drop 8
      let fromEl := safeGet el0 a.2
      let fromRoot := safeGet root a.2
      let candidate := if isFuncDyn fromEl then fromEl else fromRoot
      if dynTruthy candidate then
        ({ acc.1 with
            dom := updateAt ei (fun el => { el with events := addEvent evt candidate el.events })
              acc.1.dom },
         acc.2 ++ [.removeEv ei evt candidate])
      else acc
    else acc
  if strStartsWith a.1 "data-class-" then
    let cls := a.1.drop 11
    match safeGet el0 a.2 with
    | .boolV true =>
      ({ acc1.1 with
          dom := updateAt ei (fun el => { el with classes := classAdd cls el.classes })
            acc1.1.dom },
       acc1.2)
    | .boolV false =>
      ({ acc1.1 with
          dom := updateAt ei (fun el => { el with classes := el.classes.filter (fun c => !(c == cls)) })
            acc1.1.dom },
       acc1.2)
    | _ => acc1
  else acc1

/-- Bind one of the four recognized DOM properties of element `ei`: read
`data-<prop>`, reject empty and denylisted keys, and when the property bag
holds a signal, apply its current value, subscribe a fresh listener that
re-applies the property, and record the unsubscribe. -/
def bindSignalProp (el0 : DomElem) (ei : Nat) (acc : World × List CleanupFn)
    (p : BindProp) : World × List CleanupFn :=
  match attrLookup el0.attrs ("data-" ++ propName p) with
  | none => acc
  | some key =>
    if key = "" then acc
    else if key ∈ forbiddenKeys then acc
    else
      match propGet el0.props key with
      | .sigV si =>
        match acc.1.sigs.get? si with
        | none => acc
        | some cell =>
          let lid := acc.1.nextListener
          let w1 : World := { acc.1 with dom := updateAt ei (applyDomProp p cell.val) acc.1.dom }
          ({ w1 with
              sigs := updateAt si (fun c => { c with listeners := setAdd lid c.listeners }) w1.sigs
              bindings := w1.bindings ++ [(lid, ei, p)]
              nextListener := lid + 1 },
           acc.2 ++ [.unsub si lid])
      | _ => acc

/-- Process one element of the snapshot: wire events and class toggles in
attribute order, then bind the four recognized signal properties. -/
def mountElem (root : DomElem) (acc : World × List CleanupFn) (ei : Nat) :
    World × List CleanupFn :=
  match acc.1.dom.get? ei with
  | none => acc
  | some el0 =>
    let acc1 := el0.attrs.foldl (wireAttr root el0 ei) acc
    [BindProp.valueP, .checkedP, .disabledP, .ariaLabelP].foldl (bindSignalProp el0 ei) acc1

/-- `mount(root)`: snapshot the element list (tree-walker order, root at
index 0), process every element, and return the recorded cleanup actions
together with the updated world. -/
def mount (w : World) : List CleanupFn × World :=
  match w.dom.get? 0 with
  | none => ([], w)
  | some root =>
    let acc := (List.range w.dom.length).foldl (mountElem root) (w, [])
    (acc.2, acc.1)

/-- `removeEventListener(evt, cb)` on one element: drop the matching
(event, callback) registration. -/
def rmEvent (evt : String) (cb : DynVal) (el : DomElem) : DomElem :=
  { el with events := el.events.filter (fun pr => !(pr == (evt, cb))) }

/-- `listeners.delete(fn)` on one signal cell: drop the listener id. -/
def rmListener (lid : Nat) (c : SigCell) : SigCell :=
  { c with listeners := c.listeners.filter (fun l => !(l == lid)) }

/-- Run one recorded cleanup action: remove the event listener, or delete
the subscribed listener from the signal's listener set. -/
def applyCleanupFn (f : CleanupFn) (w : World) : World :=
  match f with
  | .removeEv ei evt cb => { w with dom := updateAt ei (rmEvent evt cb) w.dom }
  | .unsub si lid => { w with sigs := updateAt si (rmListener lid) w.sigs }

/-- `cleanupFns.forEach((fn) => fn())`: run every recorded action. -/
def runCleanupFns (fns : List CleanupFn) (w : World) : World :=
  fns.foldl (fun acc f => applyCleanupFn f acc) w

/-- The state captured by the closure `mount` returns: the recorded
cleanup set and the world it acts on. -/
structure Mounted where
  recorded : List CleanupFn
  world : World
deriving DecidableEq, Repr

/-- Call `mount` and package the returned closure's state. -/
def mountCall (w : World) : Mounted :=
  { recorded := (mount w).1, world := (mount w).2 }

/-- One invocation of the cleanup closure
`() => { cleanupFns.forEach((fn) => fn()) }`: it runs every recorded
action but never mutates the captured `cleanupFns` array. -/
def cleanupCall (m : Mounted) : Mounted :=
  { recorded := m.recorded, world := runCleanupFns m.recorded m.world }

/-- Modelled from the spec: a cleanup that "invokes every recorded
event-listener removal and every recorded signal unsubscribe and then
discards the recorded set" (the spec's §4.6 wording); for comparison with
`cleanupCall`, which the code actually implements. -/
def cleanupDiscardingSpec (m : Mounted) : Mounted :=
  { recorded := [], world := runCleanupFns m.recorded m.world }

theorem updateAt_updateAt_same {α : Type} (f g : α → α) :
    ∀ (l : List α) (i : Nat),
      updateAt i f (updateAt i g l) = updateAt i (fun x => f (g x)) l
  | [], i => by simp [updateAt]
  | x :: xs, 0 => by simp [updateAt]
  | x :: xs, i + 1 => by
    simp only [updateAt]
    rw [updateAt_updateAt_same f g xs i]

theorem updateAt_comm {α : Type} (f g : α → α) :
    ∀ (l : List α) (i j : Nat), i ≠ j →
      updateAt i f (updateAt j g l) = updateAt j g (updateAt i f l)
  | [], i, j, _ => by simp [updateAt]
  | x :: xs, 0, 0, h => absurd rfl h
  | x :: xs, 0, j + 1, _ => by simp [updateAt]
  | x :: xs, i + 1, 0, _ => by simp [updateAt]
  | x :: xs, i + 1, j + 1, h => by
    simp only [updateAt]
    rw [updateAt_comm f g xs i j (by omega)]

theorem filter_same_idem {α : Type} (p : α → Bool) (l : List α) :
    (l.filter p).filter p = l.filter p := by
  simp [List.filter_filter]

theorem filter_swap {α : Type} (p q : α → Bool) (l : List α) :
    (l.filter p).filter q = (l.filter q).filter p := by
  simp [List.filter_filter, Bool.and_comm]

theorem rmEvent_idem (evt : String) (cb : DynVal) (el : DomElem) :
    rmEvent evt cb (rmEvent evt cb el) = rmEvent evt cb el := by
  simp [rmEvent, filter_same_idem]

theorem rmEvent_swap (e1 : String) (c1 : DynVal) (e2 : String) (c2 : DynVal) (el : DomElem) :
    rmEvent e1 c1 (rmEvent e2 c2 el) = rmEvent e2 c2 (rmEvent e1 c1 el) := by
  simp only [rmEvent, List.filter_filter]
  congr 1
  exact List.filter_congr fun a _ => Bool.and_comm _ _

theorem rmListener_idem (lid : Nat) (c : SigCell) :
    rmListener lid (rmListener lid c) = rmListener lid c := by
  simp [rmListener, filter_same_idem]

theorem rmListener_swap (l1 l2 : Nat) (c : SigCell) :
    rmListener l1 (rmListener l2 c) = rmListener l2 (rmListener l1 c) := by
  simp only [rmListener, List.filter_filter]
  congr 1
  exact List.filter_congr fun a _ => Bool.and_comm _ _

theorem applyCleanupFn_idem (f : CleanupFn) (w : World) :
    applyCleanupFn f (applyCleanupFn f w) = applyCleanupFn f w := by
  cases f with
  | removeEv ei evt cb =>
    simp only [applyCleanupFn]
    rw [updateAt_updateAt_same]
    have hg : (fun x => rmEvent evt cb (rmEvent evt cb x)) = rmEvent evt cb :=
      funext fun x => rmEvent_idem evt cb x
    rw [hg]
  | unsub si lid =>
    simp only [applyCleanupFn]
    rw [updateAt_updateAt_same]
    have hg : (fun x => rmListener lid (rmListener lid x)) = rmListener lid :=
      funext fun x => rmListener_idem lid x
    rw [hg]

theorem applyCleanupFn_comm (f g : CleanupFn) (w : World) :
    applyCleanupFn f (applyCleanupFn g w) = applyCleanupFn g (applyCleanupFn f w) := by
  cases f with
  | removeEv ei1 evt1 cb1 =>
    cases g with
    | removeEv ei2 evt2 cb2 =>
      simp only [applyCleanupFn]
      by_cases hij : ei1 = ei2
      · subst hij
        rw [updateAt_updateAt_same, updateAt_updateAt_same]
        have hg : (fun x => rmEvent evt1 cb1 (rmEvent evt2 cb2 x))
            = fun x => rmEvent evt2 cb2 (rmEvent evt1 cb1 x) :=
          funext fun x => rmEvent_swap evt1 cb1 evt2 cb2 x
        rw [hg]
      · rw [updateAt_comm _ _ _ _ _ hij]
    | unsub si2 lid2 => rfl
  | unsub si1 lid1 =>
    cases g with
    | removeEv ei2 evt2 cb2 => rfl
    | unsub si2 lid2 =>
      simp only [applyCleanupFn]
      by_cases hij : si1 = si2
      · subst hij
        rw [updateAt_updateAt_same, updateAt_updateAt_same]
        have hg : (fun x => rmListener lid1 (rmListener lid2 x))
            = fun x => rmListener lid2 (rmListener lid1 x) :=
          funext fun x => rmListener_swap lid1 lid2 x
        rw [hg]
      · rw [updateAt_comm _ _ _ _ _ hij]

theorem applyCleanupFn_runCleanupFns_comm (f : CleanupFn) :
    ∀ (fns : List CleanupFn) (w : World),
      applyCleanupFn f (runCleanupFns fns w) = runCleanupFns fns (applyCleanupFn f w)
  | [], w => rfl
  | g :: t, w => by
    simp only [runCleanupFns, List.foldl_cons]
    have := applyCleanupFn_runCleanupFns_comm f t (applyCleanupFn g w)
    simp only [runCleanupFns] at this
    rw [this, applyCleanupFn_comm]

theorem runCleanupFns_idem : ∀ (fns : List CleanupFn) (w : World),
    runCleanupFns fns (runCleanupFns fns w) = runCleanupFns fns w
  | [], w => rfl
  | f :: t, w => by
    simp only [runCleanupFns, List.foldl_cons]
    have hc := applyCleanupFn_runCleanupFns_comm f t (applyCleanupFn f w)
    simp only [runCleanupFns] at hc
    rw [applyCleanupFn_idem] at hc
    rw [hc]
    have ih := runCleanupFns_idem t (applyCleanupFn f w)
    simp only [runCleanupFns] at ih
    exact ih

/-- Example world for the mount scenario: one signal holding `5` and a
single (root) element whose `data-value` attribute names the property `s`
holding that signal. -/
def mountExampleWorld : World :=
  { sigs := [{ val := .num 5, listeners := [] }]
    batchDepth := 0, pending := [], invoked := []
    dom := [{ kind := .inputEl, attrs := [("data-value", "s")], props := [("s", .sigV 0)],
              events := [], valueProp := "", checkedProp := false, disabledProp := false,
              ariaLabelProp := none, classes := [] }]
    bindings := [], nextListener := 0 }

/-- Counterexample to C9 as stated: the cleanup closure returned by
`mount` runs every recorded action but never discards the recorded set —
after one cleanup call the set still holds the recorded unsubscribe (it
is not empty, contrary to "discards the recorded set ... the set is
already empty"), and the result differs from the spec-worded
set-discarding cleanup. -/
theorem mount_cleanup_keeps_recorded_set_counterexample :
    (cleanupCall (mountCall mountExampleWorld)).recorded = [CleanupFn.unsub 0 0]
    ∧ (cleanupCall (mountCall mountExampleWorld)).recorded ≠ []
    ∧ cleanupCall (mountCall mountExampleWorld)
        ≠ cleanupDiscardingSpec (mountCall mountExampleWorld) := by
  refine ⟨by decide, by decide, by decide⟩

/-- C9 (amended): the cleanup function invokes every recorded
event-listener removal and signal unsubscribe but retains the recorded
set; each recorded action is an idempotent removal, so a second cleanup
call changes nothing (a no-op that cannot throw); and in the mount
scenario a bound DOM property shows the signal's value on mount, reflects
a later write, and after cleanup no longer reflects further writes. -/
theorem mount_cleanup_runs_all_and_second_call_is_noop :
    (∀ (m : Mounted),
        cleanupCall m = { recorded := m.recorded, world := runCleanupFns m.recorded m.world })
    ∧ (∀ (m : Mounted), cleanupCall (cleanupCall m) = cleanupCall m)
    ∧ (((mountCall mountExampleWorld).world.dom.get? 0).map (fun e => e.valueProp) = some "5"
      ∧ ((setValue 0 (.num 7) (mountCall mountExampleWorld).world).dom.get? 0).map
            (fun e => e.valueProp) = some "7"
      ∧ ((setValue 0 (.num 9)
            (cleanupCall
              { recorded := (mountCall mountExampleWorld).recorded
                world := setValue 0 (.num 7) (mountCall mountExampleWorld).world }).world).dom.get?
              0).map (fun e => e.valueProp) = some "7") := by
  refine ⟨fun m => rfl, fun m => ?_, by decide, by decide, by decide⟩
  show Mounted.mk (cleanupCall m).recorded (runCleanupFns (cleanupCall m).recorded (cleanupCall m).world)
      = cleanupCall m
  show Mounted.mk m.recorded (runCleanupFns m.recorded (runCleanupFns m.recorded m.world))
      = cleanupCall m
  rw [runCleanupFns_idem]
  rfl

/-- Witness for C9's amended quantified parts at a concrete input: the
second cleanup call on the mounted example is a no-op. -/
theorem mount_cleanup_runs_all_and_second_call_is_noop_witness :
    cleanupCall (cleanupCall (mountCall mountExampleWorld))
      = cleanupCall (mountCall mountExampleWorld) :=
  mount_cleanup_runs_all_and_second_call_is_noop.2.1 (mountCall mountExampleWorld)

/-- The base64 alphabet used by the VLQ encoder. -/
def vlqChars : String :=
  "ABCDEFGHIJKLMNOPQRSTUVWXYZabcdefghijklmnopqrstuvwxyz0123456789+/"

/-- `VLQ_CHARS[digit]` (out-of-range reads never occur: digits are < 64). -/
def vlqChar (d : Nat) : Char := vlqChars.data.getD d 'A'

/-- The sign fold of `vlqEncode`:
`value < 0 ? (-value << 1) + 1 : value << 1` — negative numbers map to an
odd low bit.  (The JS shift acts on 32-bit integers; the deltas this
encoder receives are far below the overflow range, so it is doubling.) -/
def vlqTransform (value : Int) : Nat :=
  if value < 0 then 2 * value.natAbs + 1 else 2 * value.toNat

/-- The do-while digit loop of `vlqEncode`: emit 5-bit digits little-endian,
setting the continuation bit (0x20) on every digit but the last. -/
def vlqLoopChars (vlq : Nat) : List Char :=
  if h : vlq / 32 > 0 then
    vlqChar (vlq % 32 ||| 32) :: vlqLoopChars (vlq / 32)
  else
    [vlqChar (vlq % 32)]
termination_by vlq
decreasing_by
  exact Nat.div_lt_self (Nat.pos_of_ne_zero (fun hz => by simp [hz] at h)) (by norm_num)

/-- `vlqEncode`: encode a single integer as a base64-VLQ segment. -/
def vlqEncode (value : Int) : String := ⟨vlqLoopChars (vlqTransform value)⟩

/-- `s.split("\n").length`: one more than the number of newline characters. -/
def countLines (s : String) : Nat := s.data.count '\n' + 1

/-- `segments.join(";")`. -/
def joinSemi : List String → String
  | [] => ""
  | [s] => s
  | s :: rest => s ++ ";" ++ joinSemi rest

/-- The per-output-line loop of `generateSourceMap`, with the running
`prevSourceLine` threaded explicitly and the remaining iteration count as
fuel (`fuel = outputLines - i`).  A line below `linesToMap` emits the
four-field segment `(0, 0, i - prevSourceLine, 0)` and sets
`prevSourceLine = i`; any other line emits an empty segment. -/
def segLoopGo (linesToMap : Nat) : Nat → Nat → Int → List String
  | 0, _, _ => []
  | fuel + 1, i, prev =>
    if i < linesToMap then
      (vlqEncode 0 ++ vlqEncode 0 ++ vlqEncode ((i : Int) - prev) ++ vlqEncode 0)
        :: segLoopGo linesToMap fuel (i + 1) (i : Int)
    else
      "" :: segLoopGo linesToMap fuel (i + 1) prev

/-- All segments of a map, in output-line order. -/
def buildSegments (outputLines linesToMap : Nat) : List String :=
  segLoopGo linesToMap outputLines 0 0

/-- The V3 source-map shape produced by the generator. -/
structure SourceMap where
  version : Nat
  file : String
  sources : List String
  sourcesContent : List String
  mappings : String
deriving DecidableEq, Repr

/-- `generateSourceMap`: a line-level identity map; `linesToMap` is the
minimum of the input and output line counts, extra output lines get empty
segments, and the `.lyra.tsx` suffix of the file name is normalized. -/
def generateSourceMap (filename source outputCode : String) : SourceMap :=
  let inputLines := countLines source
  let outputLines := countLines outputCode
  let linesToMap := min inputLines outputLines
  { version := 3
    file := if filename.endsWith ".lyra.tsx" then filename.dropRight 9 ++ ".tsx" else filename
    sources := [filename]
    sourcesContent := [source]
    mappings := joinSemi (buildSegments outputLines linesToMap) }

/-- Count of `;` characters in a string. -/
def countSemis (s : String) : Nat := s.data.count ';'

theorem vlqChar_ne_semi (d : Nat) : vlqChar d ≠ ';' := by
  unfold vlqChar
  cases h : vlqChars.data.get? d with
  | none =>
    simp only [List.getD]
    rw [h]
    decide
  | some c =>
    have hc : c ∈ vlqChars.data := List.get?_mem h
    have hns : ';' ∉ vlqChars.data := by decide
    simp only [List.getD]
    rw [h]
    simp only [Option.getD_some]
    exact fun he => hns (he ▸ hc)

theorem vlqLoopChars_no_semi (n : Nat) : ';' ∉ vlqLoopChars n := by
  induction n using Nat.strong_induction_on with
  | _ n ih =>
    rw [vlqLoopChars]
    by_cases h : n / 32 > 0
    · rw [dif_pos h]
      intro hmem
      rcases List.mem_cons.mp hmem with he | ht
      · exact vlqChar_ne_semi _ he.symm
      · exact ih (n / 32)
          (Nat.div_lt_self (Nat.pos_of_ne_zero (fun hz => by simp [hz] at h)) (by norm_num))
          ht
    · rw [dif_neg h]
      intro hmem
      rcases List.mem_singleton.mp hmem with he
      exact vlqChar_ne_semi _ he.symm

theorem countSemis_vlqEncode (v : Int) : countSemis (vlqEncode v) = 0 := by
  unfold countSemis vlqEncode
  exact List.count_eq_zero.mpr (vlqLoopChars_no_semi (vlqTransform v))

theorem countSemis_append (a b : String) :
    countSemis (a ++ b) = countSemis a + countSemis b := by
  unfold countSemis
  rw [String.data_append, List.count_append]

theorem countSemis_joinSemi : ∀ (segs : List String),
    (∀ s ∈ segs, countSemis s = 0) → segs ≠ [] →
    countSemis (joinSemi segs) = segs.length - 1
  | [], _, hne => absurd rfl hne
  | [s], h, _ => by
    simp only [joinSemi, List.length_singleton]
    exact h s (by simp)
  | s :: t :: rest, h, _ => by
    have ht := countSemis_joinSemi (t :: rest)
      (fun x hx => h x (List.mem_cons_of_mem s hx)) (by simp)
    simp only [joinSemi]
    rw [countSemis_append, countSemis_append, h s (by simp), ht]
    have : countSemis ";" = 1 := by decide
    rw [this]
    simp [List.length_cons]
    omega

theorem segLoopGo_length (L : Nat) : ∀ (fuel i : Nat) (prev : Int),
    (segLoopGo L fuel i prev).length = fuel
  | 0, _, _ => rfl
  | fuel + 1, i, prev => by
    unfold segLoopGo
    by_cases h : i < L
    · rw [if_pos h]
      simp [segLoopGo_length L fuel (i + 1) (i : Int)]
    · rw [if_neg h]
      simp [segLoopGo_length L fuel (i + 1) prev]

theorem segLoopGo_no_semi (L : Nat) : ∀ (fuel i : Nat) (prev : Int),
    ∀ s ∈ segLoopGo L fuel i prev, countSemis s = 0
  | 0, _, _ => by simp [segLoopGo]
  | fuel + 1, i, prev => by
    unfold segLoopGo
    by_cases h : i < L
    · rw [if_pos h]
      intro s hs
      rcases List.mem_cons.mp hs with he | ht
      · rw [he]
        simp [countSemis_append, countSemis_vlqEncode]
      · exact segLoopGo_no_semi L fuel (i + 1) (i : Int) s ht
    · rw [if_neg h]
      intro s hs
      rcases List.mem_cons.mp hs with he | ht
      · rw [he]; decide
      · exact segLoopGo_no_semi L fuel (i + 1) prev s ht

theorem segLoopGo_tail_empty (L : Nat) : ∀ (fuel i : Nat) (prev : Int), L ≤ i →
    ∀ j, j < fuel → (segLoopGo L fuel i prev).getD j "" = ""
  | 0, _, _, _, j, hj => by omega
  | fuel + 1, i, prev, hLi, j, hj => by
    unfold segLoopGo
    rw [if_neg (by omega)]
    cases j with
    | zero => rfl
    | succ j' =>
      simp only [List.getD_cons_succ]
      exact segLoopGo_tail_empty L fuel (i + 1) prev (by omega) j' (by omega)

theorem segLoopGo_mapped (L : Nat) : ∀ (fuel i : Nat), 1 ≤ i →
    ∀ j, j < fuel →
    (segLoopGo L fuel i ((i : Int) - 1)).getD j ""
      = if i + j < L then vlqEncode 0 ++ vlqEncode 0 ++ vlqEncode 1 ++ vlqEncode 0 else ""
  | 0, _, _, j, hj => by omega
  | fuel + 1, i, hi, 0, hj => by
    unfold segLoopGo
    by_cases h : i < L
    · rw [if_pos h]
      simp only [List.getD_cons_zero]
      rw [if_pos (by omega)]
      have hone : (i : Int) - ((i : Int) - 1) = 1 := by ring
      rw [hone]
    · rw [if_neg h]
      simp only [List.getD_cons_zero]
      rw [if_neg (by omega)]
  | fuel + 1, i, hi, j + 1, hj => by
    unfold segLoopGo
    by_cases h : i < L
    · rw [if_pos h]
      simp only [List.getD_cons_succ]
      have hcast : ((i : Int)) = ((i + 1 : Nat) : Int) - 1 := by push_cast; ring
      rw [hcast]
      rw [segLoopGo_mapped L fuel (i + 1) (by omega) j (by omega)]
      by_cases hL : i + (j + 1) < L
      · rw [if_pos (by omega), if_pos (by omega)]
      · rw [if_neg (by omega), if_neg (by omega)]
    · rw [if_neg h]
      simp only [List.getD_cons_succ]
      rw [if_neg (by omega)]
      exact segLoopGo_tail_empty L fuel (i + 1) _ (by omega) j (by omega)

/-- C7: for every filename, source and output, the generated map's
`mappings` string has exactly `(output line count − 1)` semicolons; it is
the `;`-join of one segment per output line, where each line `i` below
`min(inputLineCount, outputLineCount)` carries the single four-field
segment `(outputColumn=0, sourceIndex=0, sourceLineDelta=i−previousSourceLine,
sourceColumn=0)` — the delta is `0` for line 0 and `1` afterwards — every
later line carries an empty segment, and the VLQ pre-encoding gives
exactly the negative numbers an odd low bit. -/
theorem generateSourceMap_line_identity_shape (filename source outputCode : String) :
    countSemis (generateSourceMap filename source outputCode).mappings
        = countLines outputCode - 1
    ∧ (generateSourceMap filename source outputCode).mappings
        = joinSemi (buildSegments (countLines outputCode)
            (min (countLines source) (countLines outputCode)))
    ∧ (buildSegments (countLines outputCode)
          (min (countLines source) (countLines outputCode))).length = countLines outputCode
    ∧ (∀ i, i < min (countLines source) (countLines outputCode) →
        (buildSegments (countLines outputCode)
            (min (countLines source) (countLines outputCode))).getD i ""
          = vlqEncode 0 ++ vlqEncode 0 ++ vlqEncode (if i = 0 then 0 else 1) ++ vlqEncode 0)
    ∧ (∀ i, min (countLines source) (countLines outputCode) ≤ i →
        i < countLines outputCode →
        (buildSegments (countLines outputCode)
            (min (countLines source) (countLines outputCode))).getD i "" = "")
    ∧ (∀ v : Int, vlqTransform v % 2 = 1 ↔ v < 0) := by
  have hO : 1 ≤ countLines outputCode := by
    unfold countLines
    omega
  have hLO : min (countLines source) (countLines outputCode) ≤ countLines outputCode :=
    Nat.min_le_right _ _
  refine ⟨?_, rfl, segLoopGo_length _ _ _ _, ?_, ?_, ?_⟩
  · show countSemis (joinSemi (buildSegments (countLines outputCode)
        (min (countLines source) (countLines outputCode)))) = countLines outputCode - 1
    unfold buildSegments
    rw [countSemis_joinSemi _ (segLoopGo_no_semi _ _ _ _) ?hne, segLoopGo_length]
    case hne =>
      intro hnil
      have := segLoopGo_length (min (countLines source) (countLines outputCode))
        (countLines outputCode) 0 0
      rw [hnil] at this
      simp at this
      omega
  · intro i hi
    unfold buildSegments
    cases hOc : countLines outputCode with
    | zero => omega
    | succ oPred =>
      unfold segLoopGo
      rw [if_pos (by omega)]
      cases i with
      | zero =>
        simp only [List.getD_cons_zero]
        norm_num
      | succ i' =>
        simp only [List.getD_cons_succ]
        have hprev : ((0 : Nat) : Int) = ((1 : Nat) : Int) - 1 := by norm_num
        rw [hprev, segLoopGo_mapped _ oPred 1 (by omega) i' (by omega)]
        rw [if_pos (by omega), if_neg (by omega)]
  · intro i hLi hiO
    unfold buildSegments
    by_cases hL0 : min (countLines source) (countLines outputCode) = 0
    · exact segLoopGo_tail_empty _ _ _ _ (by omega) i (by omega)
    · cases hOc : countLines outputCode with
      | zero => omega
      | succ oPred =>
        unfold segLoopGo
        rw [if_pos (by omega)]
        cases i with
        | zero => omega
        | succ i' =>
          simp only [List.getD_cons_succ]
          have hprev : ((0 : Nat) : Int) = ((1 : Nat) : Int) - 1 := by norm_num
          rw [hprev, segLoopGo_mapped _ oPred 1 (by omega) i' (by omega)]
          rw [if_neg (by omega)]
  · intro v
    unfold vlqTransform
    split <;> omega

/-- Witness for C7 at a concrete input (two input lines, four output
lines): three semicolons and an empty segment for the fourth line. -/
theorem generateSourceMap_line_identity_shape_witness :
    countSemis (generateSourceMap "x.lyra.tsx" "a\nb" "a\nb\nc\nd").mappings
        = countLines "a\nb\nc\nd" - 1
    ∧ (buildSegments (countLines "a\nb\nc\nd")
          (min (countLines "a\nb") (countLines "a\nb\nc\nd"))).getD 3 "" = "" := by
  have h := generateSourceMap_line_identity_shape "x.lyra.tsx" "a\nb" "a\nb\nc\nd"
  exact ⟨h.1, h.2.2.2.2.1 3 (by decide) (by decide)⟩

/-- A source span: `getStart()` and `getWidth()` of a parsed node.
Factory-created nodes are synthetic (position −1). -/
structure SpanI where
  start : Int
  width : Int
deriving DecidableEq, Repr

/-- The span of a synthesized node (`ts.factory.create*`). -/
def synthSpan : SpanI := { start := -1, width := -1 }

mutual
/-- A parsed JSX tree node: a self-closing element, a paired element
(carrying its opening element's tag, attributes, and span), or a
fragment. -/
inductive JNode where
  | selfClosing (tag : String) (attrs : JAttrs) (sp : SpanI)
  | element (tag : String) (attrs : JAttrs) (sp : SpanI) (children : JChildren)
  | fragment (children : JChildren)
deriving DecidableEq, Repr
/-- Attribute list of an element, in source order. -/
inductive JAttrs where
  | nil
  | cons (a : JAttr) (rest : JAttrs)
deriving DecidableEq, Repr
/-- A `JsxAttribute` (name, optional initializer, span) or a
`JsxSpreadAttribute`. -/
inductive JAttr where
  | attr (name : String) (init : JInit) (sp : SpanI)
  | spread (e : JExpr)
deriving DecidableEq, Repr
/-- An attribute initializer: absent, a string literal (`text` is the
string's content without quotes), an expression container `{e}`, or an
expression container with no expression. -/
inductive JInit where
  | noInit
  | strLit (text : String)
  | exprC (e : JExpr)
  | exprCEmpty
deriving DecidableEq, Repr
/-- An expression: an identifier, a JSX element used as an expression, or
any other expression form wrapping one subexpression (`head` carries its
leading source text). -/
inductive JExpr where
  | ident (name : String)
  | jsxE (n : JNode)
  | wrapE (head : String) (inner : JExpr)
deriving DecidableEq, Repr
/-- Child list of a paired element or fragment, in source order. -/
inductive JChildren where
  | nil
  | cons (c : JChild) (rest : JChildren)
deriving DecidableEq, Repr
/-- A JSX child: text, an expression container child, an empty expression
container, or a nested element. -/
inductive JChild where
  | text (s : String)
  | exprChild (e : JExpr)
  | exprChildEmpty
  | elem (n : JNode)
deriving DecidableEq, Repr
end

/-- Append of attribute lists. -/
def JAttrs.append : JAttrs → JAttrs → JAttrs
  | .nil, ys => ys
  | .cons a rest, ys => .cons a (JAttrs.append rest ys)

/-- `String.split(sep)` character-level model: split at every occurrence
of the separator (JS `split` with a one-character string). -/
def splitOnCharList (c : Char) : List Char → List (List Char)
  | [] => [[]]
  | x :: xs =>
    let r := splitOnCharList c xs
    if x = c then [] :: r
    else
      match r with
      | [] => [[x]]
      | h :: t => (x :: h) :: t

/-- `name.split(c)[1]`: the second chunk.  When no separator occurs the
JS index is `undefined` and the template literal would interpolate the
word `undefined`; every caller guards on a prefix containing the
separator, so that branch is unreachable. -/
def jsSplitSecond (c : Char) (s : String) : String :=
  match splitOnCharList c s.data with
  | _ :: second :: _ => ⟨second⟩
  | _ => "undefined"

/-- Diagnostic severity. -/
inductive Severity where
  | error
  | warn
  | info
deriving DecidableEq, Repr

/-- A compiler diagnostic. -/
structure Diagnostic where
  code : String
  message : String
  file : String
  start : Option Int := none
  length : Option Int := none
  severity : Severity
  hint : Option String := none
  docUrl : Option String := none
deriving DecidableEq, Repr

/-- Rewrite one attribute, as the `forEach` body of the transform's
`visit` does: `on:<event>` becomes `data-on-<event>` and `class:<name>`
becomes `data-class-<name>` (both via `name.split(":")[1]`), keeping the
contained expression when the initializer was an expression container and
dropping the value otherwise (string-literal and missing values yield an
attribute with no initializer); anything else — including spread
attributes — passes through unchanged. -/
def rewriteAttr (a : JAttr) : JAttr :=
  match a with
  | .spread e => .spread e
  | .attr name init sp =>
    if strStartsWith name "on:" then
      .attr ("data-on-" ++ jsSplitSecond ':' name)
        (match init with
         | .exprC e => .exprC e
         | .exprCEmpty => .exprCEmpty
         | _ => .noInit)
        synthSpan
    else if strStartsWith name "class:" then
      .attr ("data-class-" ++ jsSplitSecond ':' name)
        (match init with
         | .exprC e => .exprC e
         | .exprCEmpty => .exprCEmpty
         | _ => .noInit)
        synthSpan
    else .attr name init sp

mutual
/-- The transform's `visit`: an element node gets its attribute list
rewritten in place (no recursion into attribute initializer expressions);
every other node recurses into its children (`ts.visitEachChild`). -/
def visitNode : JNode → JNode
  | .selfClosing tag attrs sp => .selfClosing tag (rewriteAttrs attrs) sp
  | .element tag attrs sp children => .element tag (rewriteAttrs attrs) sp (visitChildren children)
  | .fragment children => .fragment (visitChildren children)
/-- Rewrite an attribute list elementwise, preserving order. -/
def rewriteAttrs : JAttrs → JAttrs
  | .nil => .nil
  | .cons a rest => .cons (rewriteAttr a) (rewriteAttrs rest)
/-- Visit the children of a paired element or fragment. -/
def visitChildren : JChildren → JChildren
  | .nil => .nil
  | .cons c rest => .cons (visitChild c) (visitChildren rest)
/-- Visit one child: text is untouched; expression containers are
traversed; nested elements are visited. -/
def visitChild : JChild → JChild
  | .text s => .text s
  | .exprChild e => .exprChild (visitExpr e)
  | .exprChildEmpty => .exprChildEmpty
  | .elem n => .elem (visitNode n)
/-- Visit an expression: generic recursion reaches JSX elements nested
anywhere inside a child expression. -/
def visitExpr : JExpr → JExpr
  | .ident s => .ident s
  | .jsxE n => .jsxE (visitNode n)
  | .wrapE h e => .wrapE h (visitExpr e)
end

/-- The `LYRA_DIRECTIVE_STRING` warning pushed before rewriting a
directive whose value is a plain string literal. -/
def dirStringDiag (filename name text : String) (sp : SpanI) : Diagnostic :=
  { code := "LYRA_DIRECTIVE_STRING"
    message := "Directive \"" ++ name ++ "\" should use an expression \x7bvalue\x7d, not a string literal \""
      ++ text ++ "\". This will not work at runtime."
    file := filename
    start := some sp.start
    length := some sp.width
    severity := .warn
    hint := some ("Change " ++ name ++ "=\"" ++ text ++ "\" to " ++ name ++ "=\x7b" ++ text ++ "\x7d.") }

/-- Diagnostics the transform emits for one attribute: only a directive
(`on:`/`class:`) whose present initializer is a string literal warns. -/
def attrDirDiags (filename : String) (a : JAttr) : List Diagnostic :=
  match a with
  | .spread _ => []
  | .attr name init sp =>
    if strStartsWith name "on:" || strStartsWith name "class:" then
      match init with
      | .strLit text => [dirStringDiag filename name text sp]
      | _ => []
    else []

mutual
/-- Transform diagnostics collected over a node, in visit order. -/
def nodeDirDiags (filename : String) : JNode → List Diagnostic
  | .selfClosing _ attrs _ => attrsDirDiags filename attrs
  | .element _ attrs _ children =>
    attrsDirDiags filename attrs ++ childrenDirDiags filename children
  | .fragment children => childrenDirDiags filename children
/-- Transform diagnostics over an attribute list, in order. -/
def attrsDirDiags (filename : String) : JAttrs → List Diagnostic
  | .nil => []
  | .cons a rest => attrDirDiags filename a ++ attrsDirDiags filename rest
/-- Transform diagnostics over a child list, in order. -/
def childrenDirDiags (filename : String) : JChildren → List Diagnostic
  | .nil => []
  | .cons c rest => childDirDiags filename c ++ childrenDirDiags filename rest
/-- Transform diagnostics over one child. -/
def childDirDiags (filename : String) : JChild → List Diagnostic
  | .text _ => []
  | .exprChild e => exprDirDiags filename e
  | .exprChildEmpty => []
  | .elem n => nodeDirDiags filename n
/-- Transform diagnostics over an expression. -/
def exprDirDiags (filename : String) : JExpr → List Diagnostic
  | .ident _ => []
  | .jsxE n => nodeDirDiags filename n
  | .wrapE _ e => exprDirDiags filename e
end

theorem isPrefixOf_append_self (l1 l2 : List Char) : l1.isPrefixOf (l1 ++ l2) = true := by
  induction l1 with
  | nil => simp [List.isPrefixOf]
  | cons a as ih => simp [List.isPrefixOf, ih]

theorem strStartsWith_append_self (p e : String) : strStartsWith (p ++ e) p = true := by
  unfold strStartsWith
  rw [String.data_append]
  exact isPrefixOf_append_self p.data e.data

theorem splitOnCharList_no_sep (c : Char) :
    ∀ (l : List Char), (∀ x ∈ l, x ≠ c) → splitOnCharList c l = [l] := by
  intro l
  induction l with
  | nil => intro _; rfl
  | cons x xs ih =>
    intro h
    unfold splitOnCharList
    rw [if_neg (h x (by simp))]
    rw [ih (fun y hy => h y (by simp [hy]))]

theorem jsSplitSecond_on (e : String) (h : ∀ x ∈ e.data, x ≠ ':') :
    jsSplitSecond ':' ("on:" ++ e) = e := by
  unfold jsSplitSecond
  rw [String.data_append]
  show (match splitOnCharList ':' ('o' :: 'n' :: ':' :: e.data) with
    | _ :: second :: _ => (⟨second⟩ : String)
    | _ => "undefined") = e
  unfold splitOnCharList
  rw [if_neg (by decide)]
  unfold splitOnCharList
  rw [if_neg (by decide)]
  unfold splitOnCharList
  rw [if_pos rfl]
  rw [splitOnCharList_no_sep ':' e.data h]

theorem jsSplitSecond_class (e : String) (h : ∀ x ∈ e.data, x ≠ ':') :
    jsSplitSecond ':' ("class:" ++ e) = e := by
  unfold jsSplitSecond
  rw [String.data_append]
  show (match splitOnCharList ':' ('c' :: 'l' :: 'a' :: 's' :: 's' :: ':' :: e.data) with
    | _ :: second :: _ => (⟨second⟩ : String)
    | _ => "undefined") = e
  unfold splitOnCharList
  rw [if_neg (by decide)]
  unfold splitOnCharList
  rw [if_neg (by decide)]
  unfold splitOnCharList
  rw [if_neg (by decide)]
  unfold splitOnCharList
  rw [if_neg (by decide)]
  unfold splitOnCharList
  rw [if_neg (by decide)]
  unfold splitOnCharList
  rw [if_pos rfl]
  rw [splitOnCharList_no_sep ':' e.data h]

theorem class_not_on_prefixed (e : String) : strStartsWith ("class:" ++ e) "on:" = false := by
  cases e
  rfl

/-- Position-indexed access into an attribute list. -/
def attrsGetI : JAttrs → Nat → Option JAttr
  | .nil, _ => none
  | .cons a _, 0 => some a
  | .cons _ rest, i + 1 => attrsGetI rest i

/-- Position-indexed access into a child list. -/
def childrenGetI : JChildren → Nat → Option JChild
  | .nil, _ => none
  | .cons c _, 0 => some c
  | .cons _ rest, i + 1 => childrenGetI rest i

/-- `d` nested `<div>` wrappers around a node. -/
def nestDiv : Nat → JNode → JNode
  | 0, n => n
  | d + 1, n => .element "div" .nil { start := 0, width := 0 } (.cons (.elem (nestDiv d n)) .nil)

theorem attrsGetI_rewrite : ∀ (attrs : JAttrs) (i : Nat),
    attrsGetI (rewriteAttrs attrs) i = (attrsGetI attrs i).map rewriteAttr
  | .nil, _ => rfl
  | .cons a rest, 0 => rfl
  | .cons a rest, i + 1 => attrsGetI_rewrite rest i

theorem rewriteAttrs_append : ∀ (xs ys : JAttrs),
    rewriteAttrs (xs.append ys) = (rewriteAttrs xs).append (rewriteAttrs ys)
  | .nil, ys => rfl
  | .cons a rest, ys => by
    simp only [JAttrs.append, rewriteAttrs]
    rw [rewriteAttrs_append rest ys]

/-- C1: the transform rewrites `on:<event>` to `data-on-<event>` and
`class:<name>` to `data-class-<name>`, carrying the expression container
unchanged (a value-less directive stays value-less); any other attribute
— spread attributes included — passes through unmodified; attribute
lists are rewritten elementwise in place; and `on:click={fn}` becomes
exactly `data-on-click={fn}` whatever the surrounding attributes and
however deep the element is nested. -/
theorem directive_attr_rewrite :
    (∀ (e : String) (init : JInit) (sp : SpanI), (∀ x ∈ e.data, x ≠ ':') →
        rewriteAttr (.attr ("on:" ++ e) init sp)
          = .attr ("data-on-" ++ e)
              (match init with
               | .exprC x => .exprC x
               | .exprCEmpty => .exprCEmpty
               | _ => .noInit)
              synthSpan)
    ∧ (∀ (e : String) (init : JInit) (sp : SpanI), (∀ x ∈ e.data, x ≠ ':') →
        rewriteAttr (.attr ("class:" ++ e) init sp)
          = .attr ("data-class-" ++ e)
              (match init with
               | .exprC x => .exprC x
               | .exprCEmpty => .exprCEmpty
               | _ => .noInit)
              synthSpan)
    ∧ (∀ (name : String) (init : JInit) (sp : SpanI),
        strStartsWith name "on:" = false → strStartsWith name "class:" = false →
        rewriteAttr (.attr name init sp) = .attr name init sp)
    ∧ (∀ e : JExpr, rewriteAttr (.spread e) = .spread e)
    ∧ (∀ (attrs : JAttrs) (i : Nat),
        attrsGetI (rewriteAttrs attrs) i = (attrsGetI attrs i).map rewriteAttr)
    ∧ (∀ (tag : String) (sp spa : SpanI) (pre post : JAttrs) (v : JExpr),
        visitNode (.selfClosing tag
            (pre.append (.cons (.attr "on:click" (.exprC v) spa) post)) sp)
          = .selfClosing tag
              ((rewriteAttrs pre).append
                (.cons (.attr "data-on-click" (.exprC v) synthSpan) (rewriteAttrs post))) sp)
    ∧ (∀ (d : Nat) (n : JNode), visitNode (nestDiv d n) = nestDiv d (visitNode n)) := by
  refine ⟨?_, ?_, ?_, fun e => rfl, attrsGetI_rewrite, ?_, ?_⟩
  · intro e init sp h
    simp only [rewriteAttr]
    rw [if_pos (strStartsWith_append_self "on:" e)]
    rw [jsSplitSecond_on e h]
  · intro e init sp h
    simp only [rewriteAttr]
    rw [if_neg (by simp [class_not_on_prefixed])]
    rw [if_pos (strStartsWith_append_self "class:" e)]
    rw [jsSplitSecond_class e h]
  · intro name init sp h1 h2
    simp only [rewriteAttr]
    rw [if_neg (by simp [h1]), if_neg (by simp [h2])]
  · intro tag sp spa pre post v
    simp only [visitNode]
    rw [rewriteAttrs_append]
    rfl
  · intro d
    induction d with
    | zero => intro n; rfl
    | succ d' ih =>
      intro n
      simp only [nestDiv, visitNode, visitChildren, visitChild, rewriteAttrs]
      rw [ih n]

/-- Witness for C1 at concrete input: `on:click={fn}` rewrites to exactly
`data-on-click={fn}`, and a plain attribute passes through. -/
theorem directive_attr_rewrite_witness :
    rewriteAttr (.attr ("on:" ++ "click") (.exprC (.ident "fn")) { start := 0, width := 0 })
        = .attr "data-on-click" (.exprC (.ident "fn")) synthSpan
    ∧ rewriteAttr (.attr "aria-label" (.strLit "Save") { start := 0, width := 0 })
        = .attr "aria-label" (.strLit "Save") { start := 0, width := 0 } := by
  constructor
  · have h := directive_attr_rewrite.1 "click" (.exprC (.ident "fn"))
      { start := 0, width := 0 } (by decide)
    exact h.trans (by decide)
  · exact directive_attr_rewrite.2.2.1 "aria-label" (.strLit "Save")
      { start := 0, width := 0 } (by decide) (by decide)

mutual
/-- Does a directive attribute (`on:*`/`class:*`) occur anywhere in the
tree, attribute initializer expressions included? -/
def nodeHasDir : JNode → Bool
  | .selfClosing _ attrs _ => attrsHasDir attrs
  | .element _ attrs _ children => attrsHasDir attrs || childrenHasDir children
  | .fragment children => childrenHasDir children
/-- Directive search over an attribute list. -/
def attrsHasDir : JAttrs → Bool
  | .nil => false
  | .cons a rest => attrHasDir a || attrsHasDir rest
/-- Directive search over one attribute (name and initializer). -/
def attrHasDir : JAttr → Bool
  | .attr name init _ =>
    strStartsWith name "on:" || strStartsWith name "class:" || initHasDir init
  | .spread e => exprHasDir e
/-- Directive search under an initializer. -/
def initHasDir : JInit → Bool
  | .exprC e => exprHasDir e
  | _ => false
/-- Directive search over a child list. -/
def childrenHasDir : JChildren → Bool
  | .nil => false
  | .cons c rest => childHasDir c || childrenHasDir rest
/-- Directive search over one child. -/
def childHasDir : JChild → Bool
  | .text _ => false
  | .exprChild e => exprHasDir e
  | .exprChildEmpty => false
  | .elem n => nodeHasDir n
/-- Directive search over an expression. -/
def exprHasDir : JExpr → Bool
  | .ident _ => false
  | .jsxE n => nodeHasDir n
  | .wrapE _ e => exprHasDir e
end

/-- A tree whose only directive sits on an element nested inside an
attribute value expression:
`<div title={<span on:click={f} />} />`. -/
def attrNestedDirTree : JNode :=
  .selfClosing "div"
    (.cons (.attr "title"
      (.exprC (.jsxE (.selfClosing "span"
        (.cons (.attr "on:click" (.exprC (.ident "f")) { start := 12, width := 12 }) .nil)
        { start := 11, width := 26 })))
      { start := 5, width := 34 }) .nil)
    { start := 0, width := 40 }

/-- Counterexample to C5 as stated: the transform's `visit` returns
rewritten elements without recursing into their attribute value
expressions, so the directive `on:click` on the element nested inside
the `title` attribute's expression survives the transform unchanged —
not every descendant is visited. -/
theorem transform_misses_attr_nested_elements_counterexample :
    visitNode attrNestedDirTree = attrNestedDirTree
    ∧ nodeHasDir (visitNode attrNestedDirTree) = true := by
  constructor
  · rfl
  · rfl

/-- `d` nested expression wrappers around an expression. -/
def nestWrap : Nat → JExpr → JExpr
  | 0, e => e
  | d + 1, e => .wrapE "cond ? " (nestWrap d e)

theorem childrenGetI_visit : ∀ (cs : JChildren) (i : Nat),
    childrenGetI (visitChildren cs) i = (childrenGetI cs i).map visitChild
  | .nil, _ => rfl
  | .cons c rest, 0 => rfl
  | .cons c rest, i + 1 => childrenGetI_visit rest i

/-- C5 (amended): the transform recurses into every child-reachable
descendant — text children are untouched, expression-container children
are traversed so elements nested in them (at any wrapping depth) are
visited — and it preserves the order and multiplicity of attributes and
children (elementwise rewriting); but an element's attribute value
expressions are not visited, so a directive on an element nested inside
an attribute value is left unchanged. -/
theorem transform_recursion_and_preservation :
    (∀ s : String, visitChild (.text s) = .text s)
    ∧ (∀ e : JExpr, visitChild (.exprChild e) = .exprChild (visitExpr e))
    ∧ (∀ n : JNode, visitExpr (.jsxE n) = .jsxE (visitNode n))
    ∧ (∀ (d : Nat) (e : JExpr), visitExpr (nestWrap d e) = nestWrap d (visitExpr e))
    ∧ (∀ (tag : String) (attrs : JAttrs) (sp : SpanI) (children : JChildren),
        visitNode (.element tag attrs sp children)
          = .element tag (rewriteAttrs attrs) sp (visitChildren children))
    ∧ (∀ (attrs : JAttrs) (i : Nat),
        attrsGetI (rewriteAttrs attrs) i = (attrsGetI attrs i).map rewriteAttr)
    ∧ (∀ (children : JChildren) (i : Nat),
        childrenGetI (visitChildren children) i = (childrenGetI children i).map visitChild)
    ∧ (∀ (name : String) (init : JInit) (sp : SpanI),
        strStartsWith name "on:" = false → strStartsWith name "class:" = false →
        rewriteAttr (.attr name init sp) = .attr name init sp) := by
  refine ⟨fun s => rfl, fun e => rfl, fun n => rfl, ?_, fun tag attrs sp children => rfl,
    attrsGetI_rewrite, childrenGetI_visit, ?_⟩
  · intro d
    induction d with
    | zero => intro e; rfl
    | succ d' ih =>
      intro e
      simp only [nestWrap, visitExpr]
      rw [ih e]
  · intro name init sp h1 h2
    simp only [rewriteAttr]
    rw [if_neg (by simp [h1]), if_neg (by simp [h2])]

/-- Witness for C5's amended claim at concrete inputs: a text child is
untouched and a non-directive attribute passes through unchanged. -/
theorem transform_recursion_and_preservation_witness :
    visitChild (.text "hello") = .text "hello"
    ∧ rewriteAttr (.attr "title" (.strLit "x") { start := 1, width := 2 })
        = .attr "title" (.strLit "x") { start := 1, width := 2 } :=
  ⟨transform_recursion_and_preservation.1 "hello",
   transform_recursion_and_preservation.2.2.2.2.2.2.2 "title" (.strLit "x")
     { start := 1, width := 2 } (by decide) (by decide)⟩

/-- The `{` character (written by code point to keep it out of string
literals). -/
def lbrace : Char := Char.ofNat 123

/-- The `}` character. -/
def rbrace : Char := Char.ofNat 125

mutual
/-- Source text of a node (`getText()` on parser output). -/
def nodeText : JNode → String
  | .selfClosing tag attrs _ => "<" ++ tag ++ attrsText attrs ++ " />"
  | .element tag attrs _ children =>
    "<" ++ tag ++ attrsText attrs ++ ">" ++ childrenText children ++ "</" ++ tag ++ ">"
  | .fragment children => "<>" ++ childrenText children ++ "</>"
/-- Source text of an attribute list. -/
def attrsText : JAttrs → String
  | .nil => ""
  | .cons a rest => " " ++ attrText a ++ attrsText rest
/-- Source text of one attribute. -/
def attrText : JAttr → String
  | .attr name init _ => name ++ initEqText init
  | .spread e => ⟨lbrace :: ("..." ++ exprText e).data ++ [rbrace]⟩
/-- Source text of `=<initializer>` (empty when absent). -/
def initEqText : JInit → String
  | .noInit => ""
  | .strLit s => "=\"" ++ s ++ "\""
  | .exprC e => "=" ++ ⟨lbrace :: (exprText e).data ++ [rbrace]⟩
  | .exprCEmpty => "=" ++ ⟨[lbrace, rbrace]⟩
/-- Source text of a child list. -/
def childrenText : JChildren → String
  | .nil => ""
  | .cons c rest => childText c ++ childrenText rest
/-- Source text of one child. -/
def childText : JChild → String
  | .text s => s
  | .exprChild e => ⟨lbrace :: (exprText e).data ++ [rbrace]⟩
  | .exprChildEmpty => ⟨[lbrace, rbrace]⟩
  | .elem n => nodeText n
/-- Source text of an expression. -/
def exprText : JExpr → String
  | .ident s => s
  | .jsxE n => nodeText n
  | .wrapE h e => h ++ exprText e
end

/-- `p.initializer ? p.initializer.getText() : ""`: the raw initializer
text, quotes and braces included. -/
def initGetText : JInit → String
  | .noInit => ""
  | .strLit s => "\"" ++ s ++ "\""
  | .exprC e => ⟨lbrace :: (exprText e).data ++ [rbrace]⟩
  | .exprCEmpty => ⟨[lbrace, rbrace]⟩

/-- `Map.set`: overwrite the value in place when the key exists, append
otherwise. -/
def mapSet (m : List (String × String)) (k v : String) : List (String × String) :=
  match m with
  | [] => [(k, v)]
  | (k', v') :: rest => if k' = k then (k, v) :: rest else (k', v') :: mapSet rest k v

/-- `Map.get`: the stored value, `undefined` if absent. -/
def mapGet (m : List (String × String)) (k : String) : Option String :=
  match m with
  | [] => none
  | (k', v') :: rest => if k' = k then some v' else mapGet rest k

/-- `Map.has`. -/
def mapHas (m : List (String × String)) (k : String) : Bool :=
  (mapGet m k).isSome

/-- `getAttributes`: fold the JSX attributes (spreads skipped) into a map
from name to raw initializer text. -/
def getAttributesGo (acc : List (String × String)) : JAttrs → List (String × String)
  | .nil => acc
  | .cons (.attr name init _) rest => getAttributesGo (mapSet acc name (initGetText init)) rest
  | .cons (.spread _) rest => getAttributesGo acc rest

/-- Attribute map of an element. -/
def getAttributes (attrs : JAttrs) : List (String × String) :=
  getAttributesGo [] attrs

/-- `STRIP_QUOTES` (`/^["']|["']$/g`): drop one leading and one trailing
quote character. -/
def stripQuotes (s : String) : String :=
  let d1 := match s.data with
    | c :: rest => if c = '"' || c = '\'' then rest else s.data
    | [] => []
  let d2 := match d1.getLast? with
    | some c => if c = '"' || c = '\'' then d1.dropLast else d1
    | none => d1
  ⟨d2⟩

/-- `/^["'{]|[}"']$/g`: drop one leading quote-or-brace and one trailing
brace-or-quote (used on `tabindex` values). -/
def stripWrap (s : String) : String :=
  let d1 := match s.data with
    | c :: rest => if c = '"' || c = '\'' || c = lbrace then rest else s.data
    | [] => []
  let d2 := match d1.getLast? with
    | some c => if c = rbrace || c = '"' || c = '\'' then d1.dropLast else d1
    | none => d1
  ⟨d2⟩

/-- Do the digits include a nonzero one? -/
def digitsNonzero (l : List Char) : Bool := l.any (fun c => c ≠ '0')

/-- Positivity of an unsigned decimal numeral (digits with an optional
fractional part); anything else is `NaN` and yields `false`. -/
def jsNumBodyPos (l : List Char) : Bool :=
  let intPart := l.takeWhile Char.isDigit
  let rest := l.drop intPart.length
  match rest with
  | [] => !intPart.isEmpty && digitsNonzero intPart
  | '.' :: frac =>
    (!intPart.isEmpty || !frac.isEmpty) && frac.all Char.isDigit
      && (digitsNonzero intPart || digitsNonzero frac)
  | _ => false

/-- `!Number.isNaN(Number(s)) && Number(s) > 0` on the modelled fragment:
leading/trailing whitespace trimmed, optional sign, decimal digits with
an optional fraction; the exotic `Number` forms (hex, exponent,
`Infinity`) are outside the fragment and read as `NaN`. -/
def jsNumberPos (s : String) : Bool :=
  match s.trim.data with
  | [] => false
  | '+' :: rest => jsNumBodyPos rest
  | '-' :: _ => false
  | l => jsNumBodyPos l

/-- One child contributing visible content (`hasChildContent`'s `some`
predicate): non-whitespace text, any expression container, or a nested
element or self-closing element (fragments do not count). -/
def childHasContent : JChild → Bool
  | .text s => s.trim != ""
  | .exprChild _ => true
  | .exprChildEmpty => true
  | .elem n =>
    match n with
    | .fragment _ => false
    | _ => true

/-- `hasChildContent`: does any child contribute content? -/
def hasChildContent : JChildren → Bool
  | .nil => false
  | .cons c rest => childHasContent c || hasChildContent rest

/-- Insert into the collected label-target set. -/
def setInsert (s : List String) (x : String) : List String :=
  if x ∈ s then s else s ++ [x]

/-- The `htmlFor ?? for` target of a `label` element's attributes, quotes
stripped; `none` when absent or empty (falsy). -/
def labelTargetOf (attrs : JAttrs) : Option String :=
  let props := getAttributes attrs
  let htmlFor :=
    match mapGet props "htmlFor" with
    | some v => some v
    | none => mapGet props "for"
  match htmlFor with
  | some v => if v = "" then none else some (stripQuotes v)
  | none => none

/-- Add a node's label target (when it is a `label`) to the set. -/
def addLabelTarget (acc : List String) (tag : String) (attrs : JAttrs) : List String :=
  if tag = "label" then
    match labelTargetOf attrs with
    | some t => setInsert acc t
    | none => acc
  else acc

mutual
/-- `collectLabelTargets`: full pre-order traversal (`ts.forEachChild`
reaches attribute initializers too) collecting every `label` element's
`htmlFor`/`for` value, quotes stripped. -/
def cltNode (acc : List String) : JNode → List String
  | .selfClosing tag attrs _ => cltAttrs (addLabelTarget acc tag attrs) attrs
  | .element tag attrs _ children =>
    cltChildren (cltAttrs (addLabelTarget acc tag attrs) attrs) children
  | .fragment children => cltChildren acc children
/-- Label-target collection over an attribute list. -/
def cltAttrs (acc : List String) : JAttrs → List String
  | .nil => acc
  | .cons a rest => cltAttrs (cltAttr acc a) rest
/-- Label-target collection under one attribute. -/
def cltAttr (acc : List String) : JAttr → List String
  | .attr _ init _ => cltInit acc init
  | .spread e => cltExpr acc e
/-- Label-target collection under an initializer. -/
def cltInit (acc : List String) : JInit → List String
  | .exprC e => cltExpr acc e
  | _ => acc
/-- Label-target collection over a child list. -/
def cltChildren (acc : List String) : JChildren → List String
  | .nil => acc
  | .cons c rest => cltChildren (cltChild acc c) rest
/-- Label-target collection over one child. -/
def cltChild (acc : List String) : JChild → List String
  | .text _ => acc
  | .exprChild e => cltExpr acc e
  | .exprChildEmpty => acc
  | .elem n => cltNode acc n
/-- Label-target collection over an expression. -/
def cltExpr (acc : List String) : JExpr → List String
  | .ident _ => acc
  | .jsxE n => cltNode acc n
  | .wrapE _ e => cltExpr acc e
end

/-- What the a11y rules see of one element occurrence: tag, attributes,
span, its syntactic form, and (for the paired form) the children of the
enclosing `JsxElement` (`n.parent`). -/
structure ElemView where
  tag : String
  attrs : JAttrs
  sp : SpanI
  selfClosingForm : Bool
  children : JChildren
deriving DecidableEq, Repr

mutual
/-- All element occurrences of the tree in visit (pre-order) order,
attribute initializers included, exactly the nodes satisfying
`isJsxElementNode` during the rules' traversal. -/
def collectElems : JNode → List ElemView
  | .selfClosing tag attrs sp =>
    { tag := tag, attrs := attrs, sp := sp, selfClosingForm := true, children := .nil }
      :: ceAttrs attrs
  | .element tag attrs sp children =>
    { tag := tag, attrs := attrs, sp := sp, selfClosingForm := false, children := children }
      :: (ceAttrs attrs ++ ceChildren children)
  | .fragment children => ceChildren children
/-- Element collection over an attribute list. -/
def ceAttrs : JAttrs → List ElemView
  | .nil => []
  | .cons a rest => ceAttr a ++ ceAttrs rest
/-- Element collection under one attribute. -/
def ceAttr : JAttr → List ElemView
  | .attr _ init _ => ceInit init
  | .spread e => ceExpr e
/-- Element collection under an initializer. -/
def ceInit : JInit → List ElemView
  | .exprC e => ceExpr e
  | _ => []
/-- Element collection over a child list. -/
def ceChildren : JChildren → List ElemView
  | .nil => []
  | .cons c rest => ceChild c ++ ceChildren rest
/-- Element collection over one child. -/
def ceChild : JChild → List ElemView
  | .text _ => []
  | .exprChild e => ceExpr e
  | .exprChildEmpty => []
  | .elem n => collectElems n
/-- Element collection over an expression. -/
def ceExpr : JExpr → List ElemView
  | .ident _ => []
  | .jsxE n => collectElems n
  | .wrapE _ e => ceExpr e
end

/-- A11y enforcement level. -/
inductive A11yLevel where
  | strict
  | warn
  | off
deriving DecidableEq, Repr

/-- `^h[1-6]$`. -/
def isHeadingTag (t : String) : Bool :=
  t = "h1" || t = "h2" || t = "h3" || t = "h4" || t = "h5" || t = "h6"

/-- Base URL of the rule documentation. -/
def a11yDocBase : String := "https://lyra.dev/docs/a11y#"

/-- `aria-label` or `aria-labelledby` present? -/
def hasAriaNaming (props : List (String × String)) : Bool :=
  mapHas props "aria-label" || mapHas props "aria-labelledby"

/-- The diagnostics the eight a11y rules emit for one element occurrence,
in rule order, each at most once. -/
def nodeDiags (sev : Severity) (labelTargets : List String) (filename : String)
    (v : ElemView) : List Diagnostic :=
  let tag := v.tag
  let props := getAttributes v.attrs
  let d1 :=
    if (tag = "input" || tag = "select" || tag = "textarea" || tag = "button")
        && !(mapHas props "aria-label" || mapHas props "aria-labelledby"
              || mapHas props "title" || mapHas props "id") then
      [{ code := "LYRA_A11Y_001"
         message := "Interactive <" ++ tag
           ++ "> lacks an accessible name (aria-label, aria-labelledby, title, or id)."
         file := filename, start := some v.sp.start, length := some v.sp.width
         severity := sev
         hint := some "Add aria-label, aria-labelledby, title, or associate a <label> using htmlFor and an id on the control."
         docUrl := some (a11yDocBase ++ "LYRA_A11Y_001") }]
    else []
  let d2 :=
    if tag = "img"
        && !(mapHas props "alt" || mapHas props "aria-label" || mapHas props "aria-labelledby") then
      [{ code := "LYRA_A11Y_002"
         message := "<img> is missing an alt attribute. Images must have alternative text for accessibility."
         file := filename, start := some v.sp.start, length := some v.sp.width
         severity := sev
         hint := some "Add alt=\"description\" to describe the image, or alt=\"\" for decorative images."
         docUrl := some (a11yDocBase ++ "LYRA_A11Y_002") }]
    else []
  let d3 :=
    if tag = "button" && !hasAriaNaming props then
      if v.selfClosingForm then
        [{ code := "LYRA_A11Y_003"
           message := "<button> has no visible text or accessible label. Buttons must be labelled."
           file := filename, start := some v.sp.start, length := some v.sp.width
           severity := sev
           hint := some "Add text content inside the button, or add aria-label or aria-labelledby."
           docUrl := some (a11yDocBase ++ "LYRA_A11Y_003") }]
      else if !hasChildContent v.children then
        [{ code := "LYRA_A11Y_003"
           message := "<button> has no visible text or accessible label. Buttons must be labelled."
           file := filename, start := some v.sp.start, length := some v.sp.width
           severity := sev
           hint := some "Add text content inside the button, or add aria-label or aria-labelledby." }]
      else []
    else []
  let d4 :=
    if (tag = "input" || tag = "select" || tag = "textarea") && !hasAriaNaming props then
      match mapGet props "id" with
      | some idRaw =>
        let idValue := stripQuotes idRaw
        if idValue ≠ "" && idValue ∉ labelTargets then
          [{ code := "LYRA_A11Y_004"
             message := "<" ++ tag ++ "> with id=\"" ++ idValue
               ++ "\" has no associated <label htmlFor=\"" ++ idValue ++ "\">."
             file := filename, start := some v.sp.start, length := some v.sp.width
             severity := sev
             hint := some ("Add <label htmlFor=\"" ++ idValue
               ++ "\"> or use aria-label / aria-labelledby instead.")
             docUrl := some (a11yDocBase ++ "LYRA_A11Y_004") }]
        else []
      | none => []
    else []
  let d5 :=
    if tag = "a" && !mapHas props "href" then
      [{ code := "LYRA_A11Y_005"
         message := "<a> is missing an href attribute. Anchors without href are not keyboard-accessible."
         file := filename, start := some v.sp.start, length := some v.sp.width
         severity := sev
         hint := some "Add href=\"...\" to make the link navigable, or use a <button> for actions."
         docUrl := some (a11yDocBase ++ "LYRA_A11Y_005") }]
    else []
  let tabindexRaw :=
    match mapGet props "tabIndex" with
    | some x => some x
    | none => mapGet props "tabindex"
  let d6 :=
    match tabindexRaw with
    | some raw =>
      if raw ≠ "" then
        let stripped := stripWrap raw
        if jsNumberPos stripped then
          [{ code := "LYRA_A11Y_006"
             message := "tabindex=\"" ++ stripped
               ++ "\" is greater than 0. Positive tabindex values disrupt natural tab order."
             file := filename, start := some v.sp.start, length := some v.sp.width
             severity := sev
             hint := some "Use tabindex=\"0\" to make an element focusable in DOM order, or tabindex=\"-1\" for programmatic focus only."
             docUrl := some (a11yDocBase ++ "LYRA_A11Y_006") }]
        else []
      else []
    | none => []
  let d7 :=
    if !v.selfClosingForm && isHeadingTag tag && !hasAriaNaming props
        && !hasChildContent v.children then
      [{ code := "LYRA_A11Y_007"
         message := "<" ++ tag ++ "> is empty. Headings must have text content for screen readers."
         file := filename, start := some v.sp.start, length := some v.sp.width
         severity := sev
         hint := some ("Add text content inside <" ++ tag ++ ">, or remove the empty heading.")
         docUrl := some (a11yDocBase ++ "LYRA_A11Y_007") }]
    else []
  let d8 :=
    if tag = "iframe"
        && !(mapHas props "title" || mapHas props "aria-label" || mapHas props "aria-labelledby") then
      [{ code := "LYRA_A11Y_008"
         message := "<iframe> is missing a title attribute. Frames must have a title for accessibility."
         file := filename, start := some v.sp.start, length := some v.sp.width
         severity := sev
         hint := some "Add title=\"description\" to describe the iframe content."
         docUrl := some (a11yDocBase ++ "LYRA_A11Y_008") }]
    else []
  d1 ++ d2 ++ d3 ++ d4 ++ d5 ++ d6 ++ d7 ++ d8

/-- `runA11yChecks`: empty at level `off`; otherwise severity is `error`
exactly at `strict`, the label targets are collected over the whole file,
and every element occurrence is checked against the eight rules in visit
order. -/
def runA11yChecks (root : JNode) (filename : String) (level : A11yLevel) :
    List Diagnostic :=
  if level = A11yLevel.off then []
  else
    let sev := if level = A11yLevel.strict then Severity.error else Severity.warn
    let labelTargets := cltNode [] root
    (collectElems root).flatMap (nodeDiags sev labelTargets filename)

/-- `<label htmlFor="email">Email</label>` as parsed. -/
def labelEmailEl : JNode :=
  .element "label"
    (.cons (.attr "htmlFor" (.strLit "email") { start := 7, width := 15 }) .nil)
    { start := 0, width := 23 }
    (.cons (.text "Email") .nil)

/-- `<input id="email" />` as parsed. -/
def inputEmailEl : JNode :=
  .selfClosing "input"
    (.cons (.attr "id" (.strLit "email") { start := 45, width := 10 }) .nil)
    { start := 38, width := 20 }

/-- The two-element source with the label present. -/
def labelledInputTree : JNode :=
  .fragment (.cons (.elem labelEmailEl) (.cons (.elem inputEmailEl) .nil))

/-- The same source with the label removed. -/
def unlabelledInputTree : JNode :=
  .fragment (.cons (.elem inputEmailEl) .nil)

/-- C8: with the label present, no `LYRA_A11Y_004` diagnostic is emitted
at any level other than `off` (the input's id, quotes stripped, is in the
collected label-target set); with the label removed, exactly one
`LYRA_A11Y_004` diagnostic is emitted, for the input. -/
theorem label_association_scenario (level : A11yLevel) (h : level ≠ A11yLevel.off) :
    (runA11yChecks labelledInputTree "app.tsx" level).filter
        (fun d => d.code == "LYRA_A11Y_004") = []
    ∧ ((runA11yChecks unlabelledInputTree "app.tsx" level).filter
        (fun d => d.code == "LYRA_A11Y_004")).length = 1 := by
  cases level with
  | off => exact absurd rfl h
  | strict => exact ⟨by decide, by decide⟩
  | warn => exact ⟨by decide, by decide⟩

/-- Witness for C8 at the `strict` level. -/
theorem label_association_scenario_witness :
    (runA11yChecks labelledInputTree "app.tsx" .strict).filter
        (fun d => d.code == "LYRA_A11Y_004") = []
    ∧ ((runA11yChecks unlabelledInputTree "app.tsx" .strict).filter
        (fun d => d.code == "LYRA_A11Y_004")).length = 1 :=
  label_association_scenario .strict (by decide)

/-- `<button></button>` (paired form, no attributes, no children). -/
def pairedButtonTree : JNode := .element "button" .nil { start := 0, width := 17 } .nil

/-- Counterexample to C6 as stated: the `LYRA_A11Y_003` diagnostic
emitted for a paired `<button>` with no content carries no `docUrl`
(every other rule diagnostic carries one). -/
theorem a11y_button_diag_lacks_docUrl_counterexample :
    ((runA11yChecks pairedButtonTree "f.tsx" .warn).get? 1).map (fun d => d.code)
        = some "LYRA_A11Y_003"
    ∧ ((runA11yChecks pairedButtonTree "f.tsx" .warn).get? 1).map (fun d => d.docUrl)
        = some none := by
  exact ⟨by decide, by decide⟩

/-- The eight machine codes. -/
def a11yCodes : List String :=
  ["LYRA_A11Y_001", "LYRA_A11Y_002", "LYRA_A11Y_003", "LYRA_A11Y_004",
   "LYRA_A11Y_005", "LYRA_A11Y_006", "LYRA_A11Y_007", "LYRA_A11Y_008"]

/-- Names a rule can blame: the trigger tags and the `tabindex` attribute. -/
def a11yNameTokens : List String :=
  ["input", "select", "textarea", "button", "img", "a", "iframe",
   "h1", "h2", "h3", "h4", "h5", "h6", "tabindex"]

/-- The message names the offending tag or attribute: some recognized
token occurs in it (as a character substring). -/
def mentionsOne (msg : String) : Prop :=
  ∃ t ∈ a11yNameTokens, ∃ pre post : List Char, msg.data = pre ++ t.data ++ post

theorem mem_ite_singleton {α : Type} {c : Prop} [Decidable c] {x d : α}
    (h : d ∈ (if c then [x] else ([] : List α))) : c ∧ d = x := by
  by_cases hc : c
  · rw [if_pos hc] at h
    exact ⟨hc, List.mem_singleton.mp h⟩
  · rw [if_neg hc] at h
    exact absurd h (List.not_mem_nil d)

theorem code1_mem : "LYRA_A11Y_001" ∈ a11yCodes := by decide
theorem code2_mem : "LYRA_A11Y_002" ∈ a11yCodes := by decide
theorem code3_mem : "LYRA_A11Y_003" ∈ a11yCodes := by decide
theorem code4_mem : "LYRA_A11Y_004" ∈ a11yCodes := by decide
theorem code5_mem : "LYRA_A11Y_005" ∈ a11yCodes := by decide
theorem code6_mem : "LYRA_A11Y_006" ∈ a11yCodes := by decide
theorem code7_mem : "LYRA_A11Y_007" ∈ a11yCodes := by decide
theorem code8_mem : "LYRA_A11Y_008" ∈ a11yCodes := by decide

theorem data_split3 (a t b : String) :
    (a ++ t ++ b).data = a.data ++ t.data ++ b.data := by
  simp [String.data_append]

theorem data_split7 (a t b c d2 e f : String) :
    (a ++ t ++ b ++ c ++ d2 ++ e ++ f).data
      = a.data ++ t.data ++ (b.data ++ c.data ++ d2.data ++ e.data ++ f.data) := by
  simp [String.data_append]

theorem data_split_tab (x lit2 : String) :
    ("tabindex=\"" ++ x ++ lit2).data
      = [] ++ ("tabindex" : String).data ++ (("=\"" : String).data ++ x.data ++ lit2.data) := by
  have hsp : ("tabindex=\"" : String).data
      = ("tabindex" : String).data ++ ("=\"" : String).data := by decide
  simp [String.data_append, hsp]

theorem nodeDiags_fields (sev : Severity) (targets : List String) (fn : String)
    (v : ElemView) :
    ∀ d ∈ nodeDiags sev targets fn v,
      d.severity = sev ∧ d.code ∈ a11yCodes ∧ d.hint.isSome = true
      ∧ (d.docUrl.isSome = true
          ∨ (d.code = "LYRA_A11Y_003" ∧ v.tag = "button" ∧ v.selfClosingForm = false))
      ∧ mentionsOne d.message := by
  intro d hd
  simp only [nodeDiags, List.mem_append] at hd
  rcases hd with (((((((h | h) | h) | h) | h) | h) | h) | h)
  · obtain ⟨hc, rfl⟩ := mem_ite_singleton h
    simp only [Bool.and_eq_true, Bool.or_eq_true, decide_eq_true_eq] at hc
    refine ⟨rfl, code1_mem, rfl, Or.inl rfl, ?_⟩
    rcases hc.1 with ((htag | htag) | htag) | htag
    · exact ⟨"input", by decide, ("Interactive <" : String).data,
        ("> lacks an accessible name (aria-label, aria-labelledby, title, or id)." : String).data,
        by rw [htag]; exact data_split3 "Interactive <" "input" "> lacks an accessible name (aria-label, aria-labelledby, title, or id)."⟩
    · exact ⟨"select", by decide, ("Interactive <" : String).data,
        ("> lacks an accessible name (aria-label, aria-labelledby, title, or id)." : String).data,
        by rw [htag]; exact data_split3 "Interactive <" "select" "> lacks an accessible name (aria-label, aria-labelledby, title, or id)."⟩
    · exact ⟨"textarea", by decide, ("Interactive <" : String).data,
        ("> lacks an accessible name (aria-label, aria-labelledby, title, or id)." : String).data,
        by rw [htag]; exact data_split3 "Interactive <" "textarea" "> lacks an accessible name (aria-label, aria-labelledby, title, or id)."⟩
    · exact ⟨"button", by decide, ("Interactive <" : String).data,
        ("> lacks an accessible name (aria-label, aria-labelledby, title, or id)." : String).data,
        by rw [htag]; exact data_split3 "Interactive <" "button" "> lacks an accessible name (aria-label, aria-labelledby, title, or id)."⟩
  · obtain ⟨hc, rfl⟩ := mem_ite_singleton h
    exact ⟨rfl, code2_mem, rfl, Or.inl rfl, "img", by decide, ("<" : String).data,
      ("> is missing an alt attribute. Images must have alternative text for accessibility." : String).data,
      data_split3 "<" "img" "> is missing an alt attribute. Images must have alternative text for accessibility."⟩
  · split at h
    · rename_i hbtn
      split at h
      · have hd3 := List.mem_singleton.mp h
        subst hd3
        exact ⟨rfl, code3_mem, rfl, Or.inl rfl, "button", by decide, ("<" : String).data,
          ("> has no visible text or accessible label. Buttons must be labelled." : String).data,
          data_split3 "<" "button" "> has no visible text or accessible label. Buttons must be labelled."⟩
      · rename_i hsc
        split at h
        · have hd3 := List.mem_singleton.mp h
          subst hd3
          simp only [Bool.and_eq_true, decide_eq_true_eq] at hbtn
          refine ⟨rfl, code3_mem, rfl, Or.inr ⟨rfl, hbtn.1, ?_⟩, "button", by decide,
            ("<" : String).data,
            ("> has no visible text or accessible label. Buttons must be labelled." : String).data,
            data_split3 "<" "button" "> has no visible text or accessible label. Buttons must be labelled."⟩
          simpa using hsc
        · exact absurd h (List.not_mem_nil d)
    · exact absurd h (List.not_mem_nil d)
  · split at h
    · rename_i hA
      split at h
      · rename_i idRaw heq
        obtain ⟨hz, rfl⟩ := mem_ite_singleton h
        simp only [Bool.and_eq_true, Bool.or_eq_true, decide_eq_true_eq] at hA
        refine ⟨rfl, code4_mem, rfl, Or.inl rfl, ?_⟩
        rcases hA.1 with (htag | htag) | htag
        · refine ⟨"input", by decide, ("<" : String).data,
            ("> with id=\"" : String).data ++ (stripQuotes idRaw).data
              ++ ("\" has no associated <label htmlFor=\"" : String).data
              ++ (stripQuotes idRaw).data ++ ("\">." : String).data, ?_⟩
          rw [htag]
          exact data_split7 "<" "input" "> with id=\"" (stripQuotes idRaw)
            "\" has no associated <label htmlFor=\"" (stripQuotes idRaw) "\">."
        · refine ⟨"select", by decide, ("<" : String).data,
            ("> with id=\"" : String).data ++ (stripQuotes idRaw).data
              ++ ("\" has no associated <label htmlFor=\"" : String).data
              ++ (stripQuotes idRaw).data ++ ("\">." : String).data, ?_⟩
          rw [htag]
          exact data_split7 "<" "select" "> with id=\"" (stripQuotes idRaw)
            "\" has no associated <label htmlFor=\"" (stripQuotes idRaw) "\">."
        · refine ⟨"textarea", by decide, ("<" : String).data,
            ("> with id=\"" : String).data ++ (stripQuotes idRaw).data
              ++ ("\" has no associated <label htmlFor=\"" : String).data
              ++ (stripQuotes idRaw).data ++ ("\">." : String).data, ?_⟩
          rw [htag]
          exact data_split7 "<" "textarea" "> with id=\"" (stripQuotes idRaw)
            "\" has no associated <label htmlFor=\"" (stripQuotes idRaw) "\">."
      · exact absurd h (List.not_mem_nil d)
    · exact absurd h (List.not_mem_nil d)
  · obtain ⟨hc, rfl⟩ := mem_ite_singleton h
    exact ⟨rfl, code5_mem, rfl, Or.inl rfl, "a", by decide, ("<" : String).data,
      ("> is missing an href attribute. Anchors without href are not keyboard-accessible." : String).data,
      data_split3 "<" "a" "> is missing an href attribute. Anchors without href are not keyboard-accessible."⟩
  · split at h
    · rename_i raw heq
      split at h
      · obtain ⟨hz, rfl⟩ := mem_ite_singleton h
        refine ⟨rfl, code6_mem, rfl, Or.inl rfl, "tabindex", by decide, ([] : List Char),
          ("=\"" : String).data ++ (stripWrap raw).data
            ++ ("\" is greater than 0. Positive tabindex values disrupt natural tab order." : String).data, ?_⟩
        exact data_split_tab (stripWrap raw)
          "\" is greater than 0. Positive tabindex values disrupt natural tab order."
      · exact absurd h (List.not_mem_nil d)
    · exact absurd h (List.not_mem_nil d)
  · obtain ⟨hc, rfl⟩ := mem_ite_singleton h
    simp only [Bool.and_eq_true, Bool.or_eq_true, decide_eq_true_eq, isHeadingTag] at hc
    refine ⟨rfl, code7_mem, rfl, Or.inl rfl, ?_⟩
    rcases hc.1.1.2 with ((((htag | htag) | htag) | htag) | htag) | htag
    · exact ⟨"h1", by decide, ("<" : String).data,
        ("> is empty. Headings must have text content for screen readers." : String).data,
        by rw [htag]; exact data_split3 "<" "h1" "> is empty. Headings must have text content for screen readers."⟩
    · exact ⟨"h2", by decide, ("<" : String).data,
        ("> is empty. Headings must have text content for screen readers." : String).data,
        by rw [htag]; exact data_split3 "<" "h2" "> is empty. Headings must have text content for screen readers."⟩
    · exact ⟨"h3", by decide, ("<" : String).data,
        ("> is empty. Headings must have text content for screen readers." : String).data,
        by rw [htag]; exact data_split3 "<" "h3" "> is empty. Headings must have text content for screen readers."⟩
    · exact ⟨"h4", by decide, ("<" : String).data,
        ("> is empty. Headings must have text content for screen readers." : String).data,
        by rw [htag]; exact data_split3 "<" "h4" "> is empty. Headings must have text content for screen readers."⟩
    · exact ⟨"h5", by decide, ("<" : String).data,
        ("> is empty. Headings must have text content for screen readers." : String).data,
        by rw [htag]; exact data_split3 "<" "h5" "> is empty. Headings must have text content for screen readers."⟩
    · exact ⟨"h6", by decide, ("<" : String).data,
        ("> is empty. Headings must have text content for screen readers." : String).data,
        by rw [htag]; exact data_split3 "<" "h6" "> is empty. Headings must have text content for screen readers."⟩
  · obtain ⟨hc, rfl⟩ := mem_ite_singleton h
    exact ⟨rfl, code8_mem, rfl, Or.inl rfl, "iframe", by decide, ("<" : String).data,
      ("> is missing a title attribute. Frames must have a title for accessibility." : String).data,
      data_split3 "<" "iframe" "> is missing a title attribute. Frames must have a title for accessibility."⟩

/-- C6 (amended): at any level other than `off`, every diagnostic of
`runA11yChecks` has severity `error` exactly when the level is `strict`
(`warn` otherwise), a machine code among `LYRA_A11Y_001`..`008`, a
non-empty hint, and a message naming the offending tag or attribute; all
carry a `docUrl` except the `LYRA_A11Y_003` diagnostic emitted for a
paired (non-self-closing) `<button>` element, which has none — in
particular a self-closing button's `LYRA_A11Y_003` does carry one. -/
theorem a11y_diag_shape (root : JNode) (filename : String) (level : A11yLevel)
    (h : level ≠ A11yLevel.off) :
    ∀ d ∈ runA11yChecks root filename level,
      d.severity = (if level = A11yLevel.strict then Severity.error else Severity.warn)
      ∧ d.code ∈ a11yCodes ∧ d.hint.isSome = true
      ∧ (d.docUrl.isSome = true
          ∨ (d.code = "LYRA_A11Y_003"
             ∧ ∃ v ∈ collectElems root,
                 v.tag = "button" ∧ v.selfClosingForm = false
                 ∧ d ∈ nodeDiags
                     (if level = A11yLevel.strict then Severity.error else Severity.warn)
                     (cltNode [] root) filename v))
      ∧ mentionsOne d.message := by
  intro d hd
  unfold runA11yChecks at hd
  rw [if_neg h] at hd
  simp only [List.mem_flatMap] at hd
  obtain ⟨v, hv, hdv⟩ := hd
  obtain ⟨h1, h2, h3, h4, h5⟩ := nodeDiags_fields _ _ _ v d hdv
  refine ⟨h1, h2, h3, ?_, h5⟩
  rcases h4 with hurl | ⟨hc, htag, hform⟩
  · exact Or.inl hurl
  · exact Or.inr ⟨hc, v, hv, htag, hform, hdv⟩

/-- Witness for C6's amended claim on a concrete tree and level. -/
def pairedButtonHeadDiag : Diagnostic :=
  { code := "LYRA_A11Y_001"
    message := "Interactive <button> lacks an accessible name (aria-label, aria-labelledby, title, or id)."
    file := "f.tsx"
    start := some 0
    length := some 17
    severity := .warn
    hint := some "Add aria-label, aria-labelledby, title, or associate a <label> using htmlFor and an id on the control."
    docUrl := some "https://lyra.dev/docs/a11y#LYRA_A11Y_001" }

theorem a11y_diag_shape_witness :
    pairedButtonHeadDiag ∈ runA11yChecks pairedButtonTree "f.tsx" .warn
    ∧ pairedButtonHeadDiag.severity
        = (if A11yLevel.warn = A11yLevel.strict then Severity.error else Severity.warn)
    ∧ pairedButtonHeadDiag.code ∈ a11yCodes
    ∧ pairedButtonHeadDiag.hint.isSome = true
    ∧ (pairedButtonHeadDiag.docUrl.isSome = true
        ∨ (pairedButtonHeadDiag.code = "LYRA_A11Y_003"
           ∧ ∃ v ∈ collectElems pairedButtonTree,
               v.tag = "button" ∧ v.selfClosingForm = false
               ∧ pairedButtonHeadDiag ∈ nodeDiags
                   (if A11yLevel.warn = A11yLevel.strict then Severity.error else Severity.warn)
                   (cltNode [] pairedButtonTree) "f.tsx" v))
    ∧ mentionsOne pairedButtonHeadDiag.message :=
  ⟨by decide,
   a11y_diag_shape pairedButtonTree "f.tsx" .warn (by decide)
     pairedButtonHeadDiag (by decide)⟩

/-- Options of one compile invocation (defaults as destructured in the
source: source maps off, a11y `strict`). -/
structure CompileOptions where
  filename : String
  source : String
  generateSourceMap : Bool := false
  a11yLevel : A11yLevel := .strict
  dev : Bool := true
deriving DecidableEq, Repr

/-- A value thrown while parsing: an `Error` instance (which carries a
message) or any other thrown value (which carries none). -/
inductive Thrown where
  | errObj (message : String)
  | nonError
deriving DecidableEq, Repr

/-- A structural parse diagnostic reported by the parser (already
flattened message text). -/
structure TsParseDiag where
  code : Nat
  messageText : String
  start : Option Int := none
  length : Option Int := none
deriving DecidableEq, Repr

/-- Outcome of the parser call: it threw, or produced a tree together
with its attached structural parse diagnostics. -/
inductive ParseOutcome where
  | thrown (e : Thrown)
  | parsed (parseDiags : List TsParseDiag) (tree : JNode)

/-- The `meta` block of a compile result. -/
structure CompileMeta where
  symbols : List String
  islands : Bool
  a11yErrors : Nat
  transformed : Bool
deriving DecidableEq, Repr

/-- A compile result. -/
structure CompileResult where
  code : String
  map : Option SourceMap
  diagnostics : List Diagnostic
  meta : CompileMeta
deriving DecidableEq, Repr

/-- `err instanceof Error ? err.message : "Failed to parse source file"`. -/
def thrownMessage : Thrown → String
  | .errObj m => m
  | .nonError => "Failed to parse source file"

/-- Map one structural parse diagnostic to a compiler diagnostic with the
language-native numeric code prefix and the original offset and length. -/
def tsDiagTo (filename : String) (d : TsParseDiag) : Diagnostic :=
  { code := "TS" ++ toString d.code
    message := d.messageText
    file := filename
    start := d.start
    length := d.length
    severity := .error }

/-- `compile`: on a parser exception, one `LYRA_PARSE_ERROR` diagnostic
and the source returned untransformed; on structural parse diagnostics,
one mapped error diagnostic each and the source returned untransformed;
otherwise a11y checks, the directive transform, printing (the TypeScript
printer is the external collaborator `printFile`), and an optional source
map. -/
def compile (printFile : JNode → String) (opts : CompileOptions)
    (pr : ParseOutcome) : CompileResult :=
  match pr with
  | .thrown e =>
    { code := opts.source
      map := none
      diagnostics := [{ code := "LYRA_PARSE_ERROR", message := thrownMessage e,
                        file := opts.filename, severity := .error }]
      meta := { symbols := [], islands := false, a11yErrors := 1, transformed := false } }
  | .parsed pds tree =>
    if pds.length > 0 then
      { code := opts.source
        map := none
        diagnostics := pds.map (tsDiagTo opts.filename)
        meta := { symbols := [], islands := false
                  a11yErrors := ((pds.map (tsDiagTo opts.filename)).filter
                    (fun d => d.severity == Severity.error)).length
                  transformed := false } }
    else
      let aDiags := runA11yChecks tree opts.filename opts.a11yLevel
      let outCode := printFile (visitNode tree)
      let diags := aDiags ++ nodeDirDiags opts.filename tree
      { code := outCode
        map := if opts.generateSourceMap then
            some (generateSourceMap opts.filename opts.source outCode)
          else none
        diagnostics := diags
        meta := { symbols := [], islands := false
                  a11yErrors := (diags.filter (fun d => d.severity == Severity.error)).length
                  transformed := true } }

/-- The parse failed: the parser threw, or attached at least one
structural parse diagnostic. -/
def parseFailed : ParseOutcome → Prop
  | .thrown _ => True
  | .parsed pds _ => pds ≠ []

/-- C4: for every failing parse — thrown (one `LYRA_PARSE_ERROR`
diagnostic whose message is the error's message or the fixed fallback) or
structural (one error diagnostic per parser diagnostic, offsets and
lengths preserved) — `compile` returns the source unchanged, a null map,
`meta.transformed = false`, and at least one error-severity diagnostic. -/
theorem compile_parse_failure_shape (printFile : JNode → String)
    (opts : CompileOptions) (pr : ParseOutcome) (h : parseFailed pr) :
    (compile printFile opts pr).code = opts.source
    ∧ (compile printFile opts pr).map = none
    ∧ (compile printFile opts pr).meta.transformed = false
    ∧ (∃ d ∈ (compile printFile opts pr).diagnostics, d.severity = Severity.error)
    ∧ (∀ e, pr = .thrown e →
        (compile printFile opts pr).diagnostics
          = [{ code := "LYRA_PARSE_ERROR", message := thrownMessage e,
               file := opts.filename, severity := Severity.error }])
    ∧ (∀ pds tree, pr = .parsed pds tree →
        (compile printFile opts pr).diagnostics = pds.map (tsDiagTo opts.filename)) := by
  cases pr with
  | thrown e =>
    refine ⟨rfl, rfl, rfl, ?_, ?_, ?_⟩
    · exact ⟨{ code := "LYRA_PARSE_ERROR", message := thrownMessage e,
               file := opts.filename, severity := Severity.error },
        List.mem_singleton.mpr rfl, rfl⟩
    · intro e' he
      cases he
      rfl
    · intro pds tree he
      cases he
  | parsed pds tree =>
    have hne : pds ≠ [] := h
    have hlen : pds.length > 0 := List.length_pos.mpr hne
    refine ⟨?_, ?_, ?_, ?_, ?_, ?_⟩
    · simp [compile, if_pos hlen]
    · simp [compile, if_pos hlen]
    · simp [compile, if_pos hlen]
    · cases pds with
      | nil => exact absurd rfl hne
      | cons p rest =>
        refine ⟨tsDiagTo opts.filename p, ?_, rfl⟩
        simp [compile]
    · intro e he
      cases he
    · intro pds' tree' he
      cases he
      simp [compile, if_pos hlen]

/-- Witness for C4 at a concrete failing parse: a parser that throws a
non-`Error` value yields the fallback-message diagnostic and an
untransformed result. -/
theorem compile_parse_failure_shape_witness :
    (compile nodeText { filename := "a.tsx", source := "<div" }
        (.thrown .nonError)).code = "<div"
    ∧ (compile nodeText { filename := "a.tsx", source := "<div" }
        (.thrown .nonError)).diagnostics
      = [{ code := "LYRA_PARSE_ERROR", message := "Failed to parse source file",
           file := "a.tsx", severity := Severity.error }] := by
  have h := compile_parse_failure_shape nodeText { filename := "a.tsx", source := "<div" }
    (.thrown .nonError) trivial
  exact ⟨h.1, h.2.2.2.2.1 .nonError rfl⟩
